import Mathlib

/-!
Shallow embedding of the numerology calculation engine
(`backend/services/numerology_service.py`, `backend/services/pratyantar_service.py`,
`backend/api/endpoints/numerology.py`) and proofs about it.

Dates are modelled as (year, month, day) triples over `Nat` together with a
rata-die day number (`dateToRd`): proleptic Gregorian calendar, day 1 =
0001-01-01, exactly the calendar Python's `datetime` implements.  Python's
`datetime` constructor (which raises `ValueError` on an invalid or
out-of-range date, years 1..9999) is modelled by `mkDate : ... -> Option Date`;
code paths on which an uncaught `ValueError` can propagate are embedded as
`Option`-valued functions.  Loops are embedded as fuel recursion returning
`none` on fuel exhaustion, with fuel chosen large enough (the proofs show the
`none` case is unreachable on the stated domains).
-/

namespace Numerology

/-- Gregorian leap-year test, as implemented by Python's `calendar`/`datetime`. -/
def isLeap (y : Nat) : Bool :=
  (y % 4 == 0 && y % 100 != 0) || (y % 400 == 0)

/-- Number of days in month `m` of year `y` (Python `calendar.monthrange` semantics). -/
def daysInMonth (y m : Nat) : Nat :=
  if m = 2 then (if isLeap y then 29 else 28)
  else if m = 4 ∨ m = 6 ∨ m = 9 ∨ m = 11 then 30 else 31

/-- The dates accepted by Python's `datetime` constructor: a real proleptic
Gregorian calendar date with year in `1..9999`. -/
def validDateP (y m d : Nat) : Prop :=
  1 ≤ y ∧ y ≤ 9999 ∧ 1 ≤ m ∧ m ≤ 12 ∧ 1 ≤ d ∧ d ≤ daysInMonth y m

instance (y m d : Nat) : Decidable (validDateP y m d) := by
  unfold validDateP; infer_instance

/-- A calendar date value (the date part of a Python `datetime`). -/
structure Date where
  year : Nat
  month : Nat
  day : Nat
deriving DecidableEq, Repr

/-- Python's `datetime(year, month, day)` constructor: `none` models the
`ValueError` raised on an invalid date. -/
def mkDate (y m d : Nat) : Option Date :=
  if validDateP y m d then some ⟨y, m, d⟩ else none

/-- Days before month `m` in a non-leap year. -/
def cumDays (m : Nat) : Nat :=
  match m with
  | 1 => 0 | 2 => 31 | 3 => 59 | 4 => 90 | 5 => 120 | 6 => 151
  | 7 => 181 | 8 => 212 | 9 => 243 | 10 => 273 | 11 => 304 | _ => 334

/-- Rata-die day number of a date: day 1 is 0001-01-01 of the proleptic
Gregorian calendar (so 0001-01-01 is a Monday, matching Python's
`date(1, 1, 1).weekday() == 0`).  Date ordering and `timedelta` arithmetic of
Python `datetime` values correspond to `Nat` ordering and arithmetic on this
number. -/
def dateToRd (dt : Date) : Nat :=
  365 * (dt.year - 1) + (dt.year - 1) / 4 + (dt.year - 1) / 400 - (dt.year - 1) / 100
    + cumDays dt.month
    + (if 3 ≤ dt.month then (if isLeap dt.year then 1 else 0) else 0) + dt.day

/-- The `try: datetime(year, month, day) except ValueError: datetime(year, month, 28)`
pattern used throughout the source to project a birthday into another year. -/
def projectBirthday (y m d : Nat) : Option Date :=
  match mkDate y m d with
  | some dt => some dt
  | none => mkDate y m 28

end Numerology

namespace Numerology

lemma isLeap_iff (y : Nat) :
    isLeap y = true ↔ ((y % 4 = 0 ∧ y % 100 ≠ 0) ∨ y % 400 = 0) := by
  simp [isLeap, Bool.or_eq_true, Bool.and_eq_true, beq_iff_eq, bne_iff_ne]

/-- A (month, day) pair that is a valid calendar day in EVERY year: what a
non-Feb-29 birthday gives us. -/
def GoodMD (m d : Nat) : Prop :=
  1 ≤ m ∧ m ≤ 12 ∧ 1 ≤ d ∧ ∀ y, d ≤ daysInMonth y m

lemma goodMD_of_valid {y m d : Nat} (hv : validDateP y m d)
    (h29 : ¬ (m = 2 ∧ d = 29)) : GoodMD m d := by
  obtain ⟨_, _, hm1, hm2, hd1, hd2⟩ := hv
  refine ⟨hm1, hm2, hd1, fun y' => ?_⟩
  unfold daysInMonth at hd2 ⊢
  split_ifs at hd2 ⊢ <;> omega

lemma mkDate_good {m d : Nat} (h : GoodMD m d) {y : Nat} (hy1 : 1 ≤ y)
    (hy2 : y ≤ 9999) : mkDate y m d = some ⟨y, m, d⟩ := by
  obtain ⟨hm1, hm2, hd1, hd⟩ := h
  unfold mkDate
  rw [if_pos ⟨hy1, hy2, hm1, hm2, hd1, hd y⟩]

lemma dateToRd_pos (dt : Date) (h : 1 ≤ dt.day) : 1 ≤ dateToRd dt := by
  simp only [dateToRd]; omega

/-- Same year and month: the rata-die number is linear in the day. -/
lemma dateToRd_day (y m a b : Nat) :
    dateToRd ⟨y, m, a⟩ + b = dateToRd ⟨y, m, b⟩ + a := by
  simp only [dateToRd]; omega

/-- One leap year is gained at year `y` exactly when `y` is leap: the running
leap count `k / 4 + k / 400 - k / 100` steps by the leap indicator. -/
lemma leapCount_step (y : Nat) (hy : 1 ≤ y) :
    y / 4 + y / 400 - y / 100
      = ((y - 1) / 4 + (y - 1) / 400 - (y - 1) / 100)
          + (if isLeap y then 1 else 0) := by
  rcases Decidable.em (isLeap y = true) with h | h
  · rw [if_pos h]
    rw [isLeap_iff] at h
    omega
  · rw [if_neg h]
    rw [isLeap_iff] at h
    push_neg at h
    omega

set_option maxHeartbeats 1000000 in
/-- Stepping a fixed (month, day) forward one year moves the rata-die number
by 365 or 366 days. -/
lemma dateToRd_year_step (y m d : Nat) (hy : 1 ≤ y) :
    dateToRd ⟨y, m, d⟩ + 365 ≤ dateToRd ⟨y + 1, m, d⟩ ∧
      dateToRd ⟨y + 1, m, d⟩ ≤ dateToRd ⟨y, m, d⟩ + 366 := by
  have hstep := leapCount_step y hy
  simp only [dateToRd, Nat.add_sub_cancel]
  split_ifs at hstep ⊢ <;> omega

/-- Moving a fixed (month, day) `k` years forward advances the rata-die number
by at least `365 * k`. -/
lemma dateToRd_year_add (y m d k : Nat) (hy : 1 ≤ y) :
    dateToRd ⟨y, m, d⟩ + 365 * k ≤ dateToRd ⟨y + k, m, d⟩ := by
  induction k with
  | zero => simp
  | succ n ih =>
    have hstep := (dateToRd_year_step (y + n) m d (by omega)).1
    have heq : y + (n + 1) = (y + n) + 1 := by omega
    rw [heq]
    omega

lemma dateToRd_year_lt {y1 y2 : Nat} (m d : Nat) (h1 : 1 ≤ y1) (h : y1 < y2) :
    dateToRd ⟨y1, m, d⟩ < dateToRd ⟨y2, m, d⟩ := by
  have hadd := dateToRd_year_add y1 m d (y2 - y1) h1
  rw [show y1 + (y2 - y1) = y2 from by omega] at hadd
  omega

lemma dateToRd_year_le {y1 y2 : Nat} (m d : Nat) (h1 : 1 ≤ y1) (h : y1 ≤ y2) :
    dateToRd ⟨y1, m, d⟩ ≤ dateToRd ⟨y2, m, d⟩ := by
  rcases Nat.eq_or_lt_of_le h with rfl | hlt
  · exact Nat.le_refl _
  · exact Nat.le_of_lt (dateToRd_year_lt m d h1 hlt)

/-- Converse direction: comparing rata-die numbers at the same (month, day)
compares the years. -/
lemma year_lt_of_dateToRd_lt {y1 y2 : Nat} (m d : Nat) (h2 : 1 ≤ y2)
    (h : dateToRd ⟨y1, m, d⟩ < dateToRd ⟨y2, m, d⟩) : y1 < y2 := by
  by_contra hc
  have hle : y2 ≤ y1 := by omega
  have := dateToRd_year_le m d h2 hle
  omega

end Numerology

namespace Numerology

/-- Fuel-driven form of the digit sum (structural recursion, so that the
kernel can evaluate it; `digit_sum_eq` below shows it satisfies the intended
recursion, and `n` itself is always enough fuel). -/
def digit_sum_fuel : Nat → Nat → Nat
  | 0, n => n
  | fuel + 1, n => if n < 10 then n else digit_sum_fuel fuel (n / 10) + n % 10

lemma digit_sum_fuel_congr : ∀ n f1 f2, n ≤ f1 → n ≤ f2 →
    digit_sum_fuel f1 n = digit_sum_fuel f2 n := by
  intro n
  induction n using Nat.strong_induction_on with
  | _ n ih =>
    intro f1 f2 h1 h2
    rcases f1 with _ | g1 <;> rcases f2 with _ | g2
    · rfl
    · have hn : n = 0 := by omega
      subst hn
      simp [digit_sum_fuel]
    · have hn : n = 0 := by omega
      subst hn
      simp [digit_sum_fuel]
    · simp only [digit_sum_fuel]
      split_ifs with h
      · rfl
      · have hlt : n / 10 < n := Nat.div_lt_self (by omega) (by omega)
        rw [ih (n / 10) hlt g1 g2 (by omega) (by omega)]

/-- `digit_sum(number)`: sum of the decimal digits
(`sum(int(digit) for digit in str(number))`). -/
def digit_sum (n : Nat) : Nat := digit_sum_fuel n n

lemma digit_sum_eq (n : Nat) :
    digit_sum n = if n < 10 then n else digit_sum (n / 10) + n % 10 := by
  unfold digit_sum
  rcases n with _ | k
  · simp [digit_sum_fuel]
  · simp only [digit_sum_fuel]
    split_ifs with h
    · rfl
    · have hlt : (k + 1) / 10 < k + 1 := Nat.div_lt_self (by omega) (by omega)
      rw [digit_sum_fuel_congr ((k + 1) / 10) k ((k + 1) / 10) (by omega)
        (Nat.le_refl _)]

lemma digit_sum_le (n : Nat) : digit_sum n ≤ n := by
  induction n using Nat.strong_induction_on with
  | _ n ih =>
    rw [digit_sum_eq]
    split_ifs with h
    · exact Nat.le_refl n
    · have h1 : n / 10 < n := Nat.div_lt_self (by omega) (by omega)
      have := ih (n / 10) h1
      omega

lemma digit_sum_lt (n : Nat) (h : 10 ≤ n) : digit_sum n < n := by
  rw [digit_sum_eq]
  split_ifs with h1
  · omega
  · have := digit_sum_le (n / 10)
    omega

lemma digit_sum_pos (n : Nat) (h : 1 ≤ n) : 1 ≤ digit_sum n := by
  induction n using Nat.strong_induction_on with
  | _ n ih =>
    rw [digit_sum_eq]
    split_ifs with h1
    · omega
    · have h2 : n / 10 < n := Nat.div_lt_self (by omega) (by omega)
      have h3 : 1 ≤ n / 10 := by omega
      have := ih (n / 10) h2 h3
      omega

/-- Fuel-driven form of the iterated reduction (again structural so the kernel
can evaluate; each `digit_sum` step strictly decreases a value that is at
least 10, so `n` is always enough fuel — `reduce_to_single_eq` below). -/
def reduce_fuel : Nat → Nat → Nat
  | 0, n => n
  | fuel + 1, n => if n < 10 then n else reduce_fuel fuel (digit_sum n)

lemma reduce_fuel_congr : ∀ n f1 f2, n ≤ f1 → n ≤ f2 →
    reduce_fuel f1 n = reduce_fuel f2 n := by
  intro n
  induction n using Nat.strong_induction_on with
  | _ n ih =>
    intro f1 f2 h1 h2
    rcases f1 with _ | g1 <;> rcases f2 with _ | g2
    · rfl
    · have hn : n = 0 := by omega
      subst hn
      simp [reduce_fuel]
    · have hn : n = 0 := by omega
      subst hn
      simp [reduce_fuel]
    · simp only [reduce_fuel]
      split_ifs with h
      · rfl
      · have hlt : digit_sum n < n := digit_sum_lt n (by omega)
        rw [ih (digit_sum n) hlt g1 g2 (by omega) (by omega)]

/-- `reduce_to_single(number)`: repeat `digit_sum` until the value is below 10. -/
def reduce_to_single (n : Nat) : Nat := reduce_fuel n n

lemma reduce_to_single_eq (n : Nat) :
    reduce_to_single n = if n < 10 then n else reduce_to_single (digit_sum n) := by
  unfold reduce_to_single
  rcases n with _ | k
  · simp [reduce_fuel]
  · simp only [reduce_fuel]
    split_ifs with h
    · rfl
    · have hlt : digit_sum (k + 1) < k + 1 := digit_sum_lt (k + 1) (by omega)
      rw [reduce_fuel_congr (digit_sum (k + 1)) k (digit_sum (k + 1)) (by omega)
        (Nat.le_refl _)]

lemma reduce_to_single_le (n : Nat) : reduce_to_single n ≤ 9 := by
  induction n using Nat.strong_induction_on with
  | _ n ih =>
    rw [reduce_to_single_eq]
    split_ifs with h
    · omega
    · exact ih (digit_sum n) (digit_sum_lt n (by omega))

lemma reduce_to_single_pos (n : Nat) (h : 1 ≤ n) : 1 ≤ reduce_to_single n := by
  induction n using Nat.strong_induction_on with
  | _ n ih =>
    rw [reduce_to_single_eq]
    split_ifs with h1
    · omega
    · exact ih (digit_sum n) (digit_sum_lt n (by omega)) (digit_sum_pos n (by omega))

lemma reduce_to_single_range (n : Nat) (h : 1 ≤ n) :
    1 ≤ reduce_to_single n ∧ reduce_to_single n ≤ 9 :=
  ⟨reduce_to_single_pos n h, reduce_to_single_le n⟩

/-- Root number: reduced birth day. -/
def calculate_root_number (day : Nat) : Nat := reduce_to_single day

/-- Month number: reduced birth month. -/
def calculate_month_number (month : Nat) : Nat := reduce_to_single month

/-- Year number: reduced birth year. -/
def calculate_year_number (year : Nat) : Nat := reduce_to_single year

/-- Destiny number: reduce the sum of the already-reduced components. -/
def calculate_destiny_number (root month year : Nat) : Nat :=
  reduce_to_single (root + month + year)

/-- Basic Numbers `[reduced_day, reduced (year % 100)]`. -/
def calculate_basic_numbers (day year : Nat) : List Nat :=
  [reduce_to_single day, reduce_to_single (year % 100)]

/-- Digits of the day for the natal grid: nonzero tens digit, nonzero ones
digit, optionally followed by the reduced day (root). -/
def extract_day_digits (day : Nat) (include_root : Bool) : List Nat :=
  ((if day / 10 > 0 then [day / 10] else []) ++
      (if day % 10 > 0 then [day % 10] else [])) ++
    (if include_root then [reduce_to_single day] else [])

/-- Digits of the month for the natal grid: nonzero tens and ones digits. -/
def extract_month_digits (month : Nat) : List Nat :=
  (if month / 10 > 0 then [month / 10] else []) ++
    (if month % 10 > 0 then [month % 10] else [])

/-- Digits of `year % 100` for the natal grid: nonzero tens and ones digits. -/
def extract_year_digits (year : Nat) : List Nat :=
  (if year % 100 / 10 > 0 then [year % 100 / 10] else []) ++
    (if year % 100 % 10 > 0 then [year % 100 % 10] else [])

/-- The natal-grid digit multiset: day digits (root inline unless the psychic
extra applies), month digits, year digits, destiny, then the root as the
psychic extra when `day >= 10 and day % 10 != 0`. -/
def build_natal_grid_digits (day month year destiny : Nat) : List Nat :=
  let root := reduce_to_single day
  let include_psychic : Bool := ! (decide (day < 10) || decide (day % 10 = 0))
  (((extract_day_digits day (! include_psychic) ++
        extract_month_digits month) ++
      extract_year_digits year) ++ [destiny]) ++
    (if include_psychic then [root] else [])

/-- The empty Python string. -/
def emptyString : String := ⟨[]⟩

/-- The character of a decimal digit. -/
def digitChar (n : Nat) : Char := Char.ofNat (48 + n)

/-- `str(num) * count` for a single-digit `num`. -/
def strRep (n count : Nat) : String := ⟨List.replicate count (digitChar n)⟩

lemma strRep_length (n count : Nat) : (strRep n count).length = count := by
  simp [strRep, String.length]

/-- `build_natal_grid`: map each number to its digit-character string, `None`
(here `none`) for a zero count. -/
def build_natal_grid (digits : List Nat) : Nat → Option String :=
  fun num => if digits.count num > 0 then some (strRep num (digits.count num)) else none

/-- Number of characters in a grid cell (`None` counts as zero). -/
def cellLen (g : Nat → Option String) (n : Nat) : Nat :=
  ((g n).getD emptyString).length

lemma cellLen_build_natal_grid (digits : List Nat) (n : Nat) :
    cellLen (build_natal_grid digits) n = digits.count n := by
  unfold cellLen build_natal_grid
  split_ifs with h
  · simp [strRep_length]
  · simp [emptyString, String.length]
    omega

/-- The fixed Lo Shu 3x3 layout `[[3,1,9],[6,7,5],[2,8,4]]` filled from a grid
dictionary. -/
def get_natal_grid_array (g : Nat → Option String) : List (List (Option String)) :=
  [[g 3, g 1, g 9], [g 6, g 7, g 5], [g 2, g 8, g 4]]

/-- `WEEKDAY_PLANET_MAP`, keyed by weekday with Sunday = 0.  (The source dict
has exactly the keys 0..6; other inputs never occur.) -/
def WEEKDAY_PLANET_MAP (w : Nat) : Nat :=
  match w with
  | 0 => 1 | 1 => 2 | 2 => 9 | 3 => 5 | 4 => 3 | 5 => 6 | 6 => 8 | _ => 0

/-- Python's `date.weekday()`: Monday = 0, ..., Sunday = 6. -/
def pythonWeekday (dt : Date) : Nat := (dateToRd dt - 1) % 7

/-- `weekday_to_planet`: convert Python's weekday to Sunday = 0 form, then look
up the planet number. -/
def weekday_to_planet (dt : Date) : Nat :=
  let weekday := pythonWeekday dt
  WEEKDAY_PLANET_MAP (if weekday = 6 then 0 else weekday + 1)

lemma weekday_to_planet_range (dt : Date) :
    1 ≤ weekday_to_planet dt ∧ weekday_to_planet dt ≤ 9 := by
  unfold weekday_to_planet pythonWeekday
  have h : (dateToRd dt - 1) % 7 < 7 := Nat.mod_lt _ (by omega)
  generalize (dateToRd dt - 1) % 7 = w at h ⊢
  interval_cases w <;> decide

/-- `calculate_antardasha`: reduce `weekday_planet + yy + root + month`
(month raw, not reduced). -/
def calculate_antardasha (year day month : Nat) (review_date : Date)
    (dob_root : Option Nat) : Nat :=
  let yy := year % 100
  let weekday_planet := weekday_to_planet review_date
  let root := match dob_root with
    | none => reduce_to_single day
    | some r => r
  reduce_to_single (weekday_planet + yy + root + month)

lemma calculate_antardasha_range (year day month : Nat) (review_date : Date)
    (dob_root : Option Nat) :
    1 ≤ calculate_antardasha year day month review_date dob_root ∧
      calculate_antardasha year day month review_date dob_root ≤ 9 := by
  unfold calculate_antardasha
  have h := weekday_to_planet_range review_date
  apply reduce_to_single_range
  omega

/-- Personal Year: reduce `birth_month + birth_day + reduced target year`. -/
def calculate_personal_year (birth_month birth_day target_year : Nat) : Nat :=
  reduce_to_single (birth_month + birth_day + reduce_to_single target_year)

/-- Personal Month: reduce `personal_year + calendar_month`. -/
def calculate_personal_month (personal_year calendar_month : Nat) : Nat :=
  reduce_to_single (personal_year + calendar_month)

end Numerology

namespace Numerology

/-- One emitted Mahadasha period.  The source stores `dasha_number` plus the
start and end dates as ISO strings; here the start is kept as a date and the
inclusive end as its day number. -/
structure MPeriod where
  dasha : Nat
  start : Date
  endRd : Nat
deriving DecidableEq, Repr

/-- Loop of `generate_mahadasha_timeline`, one fuel unit per iteration.
`none` models an uncaught `ValueError` from the `datetime` constructor
(there is NO Feb-29 fallback in this function) and fuel exhaustion (the fuel
supplied below is shown sufficient).  After a clipped period the source sets
`current_date = end_date + 1 day`, so `current_date < end_date` fails and the
loop stops: the clipped branch returns immediately. -/
def mahadashaAux (horizonRd : Nat) : Nat → Date → Nat → Option (List MPeriod)
  | 0, _, _ => none
  | fuel + 1, cur, dasha =>
    if dateToRd cur < horizonRd then
      match mkDate (cur.year + dasha) cur.month cur.day with
      | none => none
      | some nxt =>
        if horizonRd < dateToRd nxt - 1 then
          some [⟨dasha, cur, horizonRd⟩]
        else
          match mahadashaAux horizonRd fuel nxt (dasha % 9 + 1) with
          | none => none
          | some rest => some (⟨dasha, cur, dateToRd nxt - 1⟩ :: rest)
    else some []

/-- `generate_mahadasha_timeline(dob_date, root, years_ahead)`. -/
def generate_mahadasha_timeline (dob : Date) (root : Nat) (years_ahead : Nat) :
    Option (List MPeriod) :=
  match mkDate (dob.year + years_ahead) dob.month dob.day with
  | none => none
  | some horizon =>
    mahadashaAux (dateToRd horizon) (dateToRd horizon + 1) dob root

/-- `get_mahadasha_for_date`: linear scan for the first period whose inclusive
`[start, end]` range contains the query day. -/
def get_mahadasha_for_date (timeline : List MPeriod) (queryRd : Nat) : Option Nat :=
  match timeline with
  | [] => none
  | p :: rest =>
    if dateToRd p.start ≤ queryRd ∧ queryRd ≤ p.endRd then some p.dasha
    else get_mahadasha_for_date rest queryRd

/-- Invariants of the Mahadasha loop, for the suffix of the timeline generated
from year `cy` (same month/day as the birthdate) with current value `dasha`. -/
structure TLProps (m d horizonRd cy dasha : Nat) (ps : List MPeriod) : Prop where
  head_start : ∀ p0, ps.head? = some p0 → p0.start = ⟨cy, m, d⟩ ∧ p0.dasha = dasha
  empty_iff : ps = [] ↔ horizonRd ≤ dateToRd ⟨cy, m, d⟩
  mem_props : ∀ p ∈ ps, p.start.month = m ∧ p.start.day = d ∧ 1 ≤ p.start.year ∧
      1 ≤ p.dasha ∧ p.dasha ≤ 9 ∧
      dateToRd ⟨cy, m, d⟩ ≤ dateToRd p.start ∧
      dateToRd p.start ≤ p.endRd ∧
      p.endRd = min (dateToRd ⟨p.start.year + p.dasha, m, d⟩ - 1) horizonRd
  chain : List.Chain' (fun p q =>
      dateToRd q.start = p.endRd + 1 ∧ q.dasha = p.dasha % 9 + 1 ∧
        p.endRd = dateToRd ⟨p.start.year + p.dasha, m, d⟩ - 1) ps
  covers : ∀ q, dateToRd ⟨cy, m, d⟩ ≤ q → q < horizonRd →
      ps.countP (fun p => decide (dateToRd p.start ≤ q ∧ q ≤ p.endRd)) = 1

lemma mahadashaAux_total (m d : Nat) (hmd : GoodMD m d) (H : Nat)
    (hH1 : 1 ≤ H) (hH : H ≤ 9990) :
    ∀ fuel cy dasha, 1 ≤ cy → 1 ≤ dasha → dasha ≤ 9 →
      dateToRd ⟨H, m, d⟩ - dateToRd ⟨cy, m, d⟩ < fuel →
      ∃ ps, mahadashaAux (dateToRd ⟨H, m, d⟩) fuel ⟨cy, m, d⟩ dasha = some ps ∧
        TLProps m d (dateToRd ⟨H, m, d⟩) cy dasha ps := by
  intro fuel
  induction fuel with
  | zero => intro cy dasha _ _ _ hfuel; omega
  | succ fuel ih =>
    intro cy dasha hcy hd1 hd9 hfuel
    by_cases hlt : dateToRd ⟨cy, m, d⟩ < dateToRd ⟨H, m, d⟩
    · have hcyH : cy < H := year_lt_of_dateToRd_lt m d hH1 hlt
      have hnext : mkDate (cy + dasha) m d = some ⟨cy + dasha, m, d⟩ :=
        mkDate_good hmd (by omega) (by omega)
      have hge : dateToRd ⟨cy, m, d⟩ + 365 ≤ dateToRd ⟨cy + dasha, m, d⟩ := by
        have := dateToRd_year_add cy m d dasha hcy
        have h365 : 365 ≤ 365 * dasha := by omega
        omega
      have hnxtpos : 1 ≤ dateToRd ⟨cy + dasha, m, d⟩ :=
        dateToRd_pos _ hmd.2.2.1
      by_cases hclip : dateToRd ⟨H, m, d⟩ < dateToRd ⟨cy + dasha, m, d⟩ - 1
      · refine ⟨[⟨dasha, ⟨cy, m, d⟩, dateToRd ⟨H, m, d⟩⟩], ?_, ?_⟩
        · simp only [mahadashaAux, if_pos hlt, hnext, if_pos hclip]
        · refine ⟨?_, ?_, ?_, ?_, ?_⟩
          · intro p0 hp0
            simp only [List.head?_cons, Option.some.injEq] at hp0
            subst hp0
            exact ⟨rfl, rfl⟩
          · constructor
            · intro h; cases h
            · intro h; omega
          · intro p hp
            simp only [List.mem_singleton] at hp
            subst hp
            dsimp only
            refine ⟨rfl, rfl, hcy, hd1, hd9, Nat.le_refl _, by omega, by omega⟩
          · exact List.chain'_singleton _
          · intro q hq1 hq2
            simp only [List.countP_cons, List.countP_nil]
            dsimp only
            simp only [decide_eq_true_eq]
            rw [if_pos ⟨hq1, by omega⟩]
      · push_neg at hclip
        obtain ⟨ps', heq', hp'⟩ :=
          ih (cy + dasha) (dasha % 9 + 1) (by omega) (by omega) (by omega) (by omega)
        refine ⟨⟨dasha, ⟨cy, m, d⟩, dateToRd ⟨cy + dasha, m, d⟩ - 1⟩ :: ps', ?_, ?_⟩
        · simp only [mahadashaAux, if_pos hlt, hnext, if_neg (by omega : ¬ dateToRd ⟨H, m, d⟩ < dateToRd ⟨cy + dasha, m, d⟩ - 1), heq']
        · refine ⟨?_, ?_, ?_, ?_, ?_⟩
          · intro p0 hp0
            simp only [List.head?_cons, Option.some.injEq] at hp0
            subst hp0
            exact ⟨rfl, rfl⟩
          · constructor
            · intro h; cases h
            · intro h; omega
          · intro p hp
            rcases List.mem_cons.mp hp with hp | hp
            · subst hp
              dsimp only
              refine ⟨rfl, rfl, hcy, hd1, hd9, Nat.le_refl _, by omega, by omega⟩
            · obtain ⟨q1, q2, q3, q4, q5, q6, q7, q8⟩ := hp'.mem_props p hp
              exact ⟨q1, q2, q3, q4, q5, by omega, q7, q8⟩
          · rw [List.chain'_cons']
            refine ⟨?_, hp'.chain⟩
            intro b hb
            obtain ⟨hb1, hb2⟩ := hp'.head_start b hb
            dsimp only
            rw [hb1, hb2]
            refine ⟨by omega, rfl, by omega⟩
          · intro q hq1 hq2
            rw [List.countP_cons]
            by_cases hq : q ≤ dateToRd ⟨cy + dasha, m, d⟩ - 1
            · have hzero : ps'.countP
                  (fun p => decide (dateToRd p.start ≤ q ∧ q ≤ p.endRd)) = 0 := by
                rw [List.countP_eq_zero]
                intro p hp
                obtain ⟨_, _, _, _, _, q6, _, _⟩ := hp'.mem_props p hp
                simp only [decide_eq_true_eq]
                omega
              rw [hzero]
              dsimp only
              simp only [decide_eq_true_eq]
              rw [if_pos ⟨hq1, hq⟩]
            · have hone := hp'.covers q (by omega) hq2
              rw [hone]
              dsimp only
              simp only [decide_eq_true_eq]
              rw [if_neg (by omega : ¬ (dateToRd ⟨cy, m, d⟩ ≤ q ∧ q ≤ dateToRd ⟨cy + dasha, m, d⟩ - 1))]
    · refine ⟨[], ?_, ?_⟩
      · simp only [mahadashaAux, if_neg hlt]
      · refine ⟨?_, ?_, ?_, ?_, ?_⟩
        · intro p0 hp0; cases hp0
        · simp only [true_iff]; omega
        · intro p hp; cases hp
        · exact List.chain'_nil
        · intro q hq1 hq2; omega

end Numerology

namespace Numerology

/-- If exactly one period of a timeline contains the query day, the linear
scan `get_mahadasha_for_date` returns that period's dasha number. -/
lemma lookup_finds_first (q : Nat) :
    ∀ tl : List MPeriod,
      tl.countP (fun p => decide (dateToRd p.start ≤ q ∧ q ≤ p.endRd)) = 1 →
      ∃ p, p ∈ tl ∧ dateToRd p.start ≤ q ∧ q ≤ p.endRd ∧
        get_mahadasha_for_date tl q = some p.dasha := by
  intro tl
  induction tl with
  | nil => intro h; simp [List.countP_nil] at h
  | cons p rest ih =>
    intro h
    rw [List.countP_cons] at h
    by_cases hc : dateToRd p.start ≤ q ∧ q ≤ p.endRd
    · refine ⟨p, List.mem_cons_self p rest, hc.1, hc.2, ?_⟩
      simp only [get_mahadasha_for_date]
      rw [if_pos hc]
    · have hdf : decide (dateToRd p.start ≤ q ∧ q ≤ p.endRd) = false := by
        simp only [decide_eq_false_iff_not]
        exact hc
      rw [hdf, if_neg Bool.false_ne_true, Nat.add_zero] at h
      obtain ⟨p', hmem, hc1, hc2, hlook⟩ := ih h
      refine ⟨p', List.mem_cons_of_mem p hmem, hc1, hc2, ?_⟩
      simp only [get_mahadasha_for_date]
      rw [if_neg hc]
      exact hlook

/-- C5 (amended): for every valid non-Feb-29 birthdate, root in [1,9] and
`years_ahead >= 1` such that all `datetime` constructions stay within Python's
year range (`birth_year + years_ahead <= 9990`), the generated Mahadasha
timeline is produced without error, is nonempty, starts at the birthdate with
dasha equal to the root, every period ends at (start + dasha years) - 1 day
clipped to the horizon (and exactly at (start + dasha years) - 1 day for every
non-final period), consecutive periods are contiguous, and each successive
dasha is (previous mod 9) + 1. -/
theorem mahadasha_timeline_structure
    (y m d root ya : Nat)
    (hv : validDateP y m d) (h29 : ¬ (m = 2 ∧ d = 29))
    (hr1 : 1 ≤ root) (hr9 : root ≤ 9)
    (hya : 1 ≤ ya) (hbound : y + ya ≤ 9990) :
    ∃ tl, generate_mahadasha_timeline ⟨y, m, d⟩ root ya = some tl ∧
      tl ≠ [] ∧
      (∀ p0, tl.head? = some p0 → p0.start = ⟨y, m, d⟩ ∧ p0.dasha = root) ∧
      (∀ p ∈ tl,
        dateToRd p.start ≤ p.endRd ∧
        p.endRd = min (dateToRd ⟨p.start.year + p.dasha, m, d⟩ - 1)
            (dateToRd ⟨y + ya, m, d⟩)) ∧
      List.Chain' (fun p q =>
        dateToRd q.start = p.endRd + 1 ∧ q.dasha = p.dasha % 9 + 1 ∧
          p.endRd = dateToRd ⟨p.start.year + p.dasha, m, d⟩ - 1) tl := by
  have hmd := goodMD_of_valid hv h29
  have h1y : 1 ≤ y := hv.1
  have hHor : mkDate (y + ya) m d = some ⟨y + ya, m, d⟩ :=
    mkDate_good hmd (by omega) (by omega)
  obtain ⟨ps, heq, hp⟩ := mahadashaAux_total m d hmd (y + ya) (by omega) hbound
      (dateToRd ⟨y + ya, m, d⟩ + 1) y root h1y hr1 hr9 (by omega)
  refine ⟨ps, ?_, ?_, hp.head_start, ?_, hp.chain⟩
  · unfold generate_mahadasha_timeline
    dsimp only
    rw [hHor]
    exact heq
  · intro hnil
    rw [hp.empty_iff] at hnil
    have := dateToRd_year_lt m d h1y (show y < y + ya by omega)
    omega
  · intro p hpp
    obtain ⟨_, _, _, _, _, _, q7, q8⟩ := hp.mem_props p hpp
    exact ⟨q7, q8⟩

/-- Witness for `mahadasha_timeline_structure` at birthdate 26/02/1982,
root 8, 120 years ahead. -/
theorem mahadasha_timeline_structure_witness :
    validDateP 1982 2 26 ∧
      (∃ tl, generate_mahadasha_timeline ⟨1982, 2, 26⟩ 8 120 = some tl ∧
        tl ≠ [] ∧
        (∀ p0, tl.head? = some p0 → p0.start = ⟨1982, 2, 26⟩ ∧ p0.dasha = 8) ∧
        (∀ p ∈ tl,
          dateToRd p.start ≤ p.endRd ∧
          p.endRd = min (dateToRd ⟨p.start.year + p.dasha, 2, 26⟩ - 1)
              (dateToRd ⟨1982 + 120, 2, 26⟩)) ∧
        List.Chain' (fun p q =>
          dateToRd q.start = p.endRd + 1 ∧ q.dasha = p.dasha % 9 + 1 ∧
            p.endRd = dateToRd ⟨p.start.year + p.dasha, 2, 26⟩ - 1) tl) :=
  ⟨by decide,
    mahadasha_timeline_structure 1982 2 26 8 120 (by decide) (by decide)
      (by decide) (by decide) (by decide) (by decide)⟩

/-- C5 counterexample: for `years_ahead = 9000` (allowed by the claim, which
quantifies over every `years_ahead >= 1`) the source raises `ValueError` while
constructing `datetime(dob.year + years_ahead, ...)`, so no timeline with the
claimed properties exists. -/
theorem mahadasha_timeline_years_ahead_overflow :
    generate_mahadasha_timeline ⟨1990, 1, 1⟩ 1 9000 = none := by
  decide

/-- C10 (amended): with the same domain restriction as C5
(`birth_year + years_ahead <= 9990`), every day `q` with
`birthdate <= q < birthdate + years_ahead years` is contained in exactly one
period of the timeline, and the Mahadasha lookup returns that unique period's
dasha number (never not-found). -/
theorem mahadasha_lookup_total
    (y m d root ya q : Nat)
    (hv : validDateP y m d) (h29 : ¬ (m = 2 ∧ d = 29))
    (hr1 : 1 ≤ root) (hr9 : root ≤ 9)
    (hya : 1 ≤ ya) (hbound : y + ya ≤ 9990)
    (hq1 : dateToRd ⟨y, m, d⟩ ≤ q) (hq2 : q < dateToRd ⟨y + ya, m, d⟩) :
    ∃ tl, generate_mahadasha_timeline ⟨y, m, d⟩ root ya = some tl ∧
      tl.countP (fun p => decide (dateToRd p.start ≤ q ∧ q ≤ p.endRd)) = 1 ∧
      ∃ p, p ∈ tl ∧ dateToRd p.start ≤ q ∧ q ≤ p.endRd ∧
        get_mahadasha_for_date tl q = some p.dasha := by
  have hmd := goodMD_of_valid hv h29
  have h1y : 1 ≤ y := hv.1
  have hHor : mkDate (y + ya) m d = some ⟨y + ya, m, d⟩ :=
    mkDate_good hmd (by omega) (by omega)
  obtain ⟨ps, heq, hp⟩ := mahadashaAux_total m d hmd (y + ya) (by omega) hbound
      (dateToRd ⟨y + ya, m, d⟩ + 1) y root h1y hr1 hr9 (by omega)
  have hcount := hp.covers q hq1 hq2
  refine ⟨ps, ?_, hcount, lookup_finds_first q ps hcount⟩
  unfold generate_mahadasha_timeline
  dsimp only
  rw [hHor]
  exact heq

/-- Witness for `mahadasha_lookup_total`: birthdate 30/06/1986, root 3,
120 years ahead, query day 2000-01-01. -/
theorem mahadasha_lookup_total_witness :
    validDateP 1986 6 30 ∧ dateToRd ⟨1986, 6, 30⟩ ≤ dateToRd ⟨2000, 1, 1⟩ ∧
      (∃ tl, generate_mahadasha_timeline ⟨1986, 6, 30⟩ 3 120 = some tl ∧
        tl.countP (fun p => decide (dateToRd p.start ≤ dateToRd ⟨2000, 1, 1⟩ ∧
          dateToRd ⟨2000, 1, 1⟩ ≤ p.endRd)) = 1 ∧
        ∃ p, p ∈ tl ∧ dateToRd p.start ≤ dateToRd ⟨2000, 1, 1⟩ ∧
          dateToRd ⟨2000, 1, 1⟩ ≤ p.endRd ∧
          get_mahadasha_for_date tl (dateToRd ⟨2000, 1, 1⟩) = some p.dasha) :=
  ⟨by decide, by decide,
    mahadasha_lookup_total 1986 6 30 3 120 (dateToRd ⟨2000, 1, 1⟩) (by decide)
      (by decide) (by decide) (by decide) (by decide) (by decide) (by decide)
      (by decide)⟩

/-- C10 counterexample: for `years_ahead = 8100` (allowed by the claim) the
source raises `ValueError` constructing the horizon date, so no timeline
exists and every lookup against it is impossible. -/
theorem mahadasha_lookup_years_ahead_overflow :
    generate_mahadasha_timeline ⟨1985, 3, 15⟩ 6 8100 = none := by
  decide

end Numerology

namespace Numerology

/-- C6 (confirmed): the Antardasha value is
`reduceToSingle(weekdayPlanet + (year mod 100) + root + month)` with the raw
month, and is always in [1,9]. -/
theorem antardasha_formula (year day month : Nat) (review_date : Date) (root : Nat) :
    calculate_antardasha year day month review_date (some root)
        = reduce_to_single
            (weekday_to_planet review_date + year % 100 + root + month) ∧
      1 ≤ calculate_antardasha year day month review_date (some root) ∧
      calculate_antardasha year day month review_date (some root) ≤ 9 :=
  ⟨rfl, (calculate_antardasha_range year day month review_date (some root)).1,
    (calculate_antardasha_range year day month review_date (some root)).2⟩

lemma extract_day_digits_true (day : Nat) :
    extract_day_digits day true
      = extract_day_digits day false ++ [reduce_to_single day] := by
  simp [extract_day_digits]

/-- C7 (confirmed): the psychic-extra branching never changes the natal digit
multiset: it always equals the digits obtained with the root included inline in
the day digits, the resulting natal grid is identical, and the root occurs
exactly once beyond the raw day/month/year/destiny digits. -/
theorem psychic_extra_no_effect (day month year destiny : Nat) :
    (build_natal_grid_digits day month year destiny).Perm
        (extract_day_digits day true ++ extract_month_digits month ++
          extract_year_digits year ++ [destiny]) ∧
      (∀ n, (build_natal_grid_digits day month year destiny).count n
          = (extract_day_digits day true ++ extract_month_digits month ++
              extract_year_digits year ++ [destiny]).count n) ∧
      (∀ n, build_natal_grid (build_natal_grid_digits day month year destiny) n
          = build_natal_grid (extract_day_digits day true ++
              extract_month_digits month ++ extract_year_digits year ++
              [destiny]) n) ∧
      (build_natal_grid_digits day month year destiny).count (reduce_to_single day)
        = (extract_day_digits day false ++ extract_month_digits month ++
            extract_year_digits year ++ [destiny]).count (reduce_to_single day)
            + 1 := by
  have hcount : ∀ n, (build_natal_grid_digits day month year destiny).count n
      = (extract_day_digits day true ++ extract_month_digits month ++
          extract_year_digits year ++ [destiny]).count n := by
    intro n
    rw [extract_day_digits_true]
    cases hb : (decide (day < 10) || decide (day % 10 = 0)) <;>
      simp [build_natal_grid_digits, extract_day_digits, hb,
        List.count_append, List.count_cons] <;>
      omega
  refine ⟨List.perm_iff_count.mpr hcount, hcount, ?_, ?_⟩
  · intro n
    unfold build_natal_grid
    rw [hcount n]
  · rw [hcount (reduce_to_single day), extract_day_digits_true]
    simp [List.count_append]
    omega

/-- `build_period_grid(annual_grid_counts, pratyantar)`: copy the annual
counts, add exactly +1 for the Pratyantar number (whenever it is a number
1..9), then render each count as a repeated-digit string (`None` for 0). -/
def build_period_grid (annual_grid_counts : Nat → Nat) (pratyantar : Nat) :
    Nat → Option String :=
  let counts : Nat → Nat := fun n =>
    if n = pratyantar ∧ 1 ≤ pratyantar ∧ pratyantar ≤ 9
    then annual_grid_counts n + 1 else annual_grid_counts n
  fun num => if counts num > 0 then some (strRep num (counts num)) else none

lemma cellLen_build_period_grid (annual_grid_counts : Nat → Nat)
    (pratyantar n : Nat) :
    cellLen (build_period_grid annual_grid_counts pratyantar) n
      = annual_grid_counts n
        + (if n = pratyantar ∧ 1 ≤ pratyantar ∧ pratyantar ≤ 9 then 1 else 0) := by
  unfold cellLen build_period_grid
  dsimp only
  by_cases h : n = pratyantar ∧ 1 ≤ pratyantar ∧ pratyantar ≤ 9
  · rw [if_pos h, if_pos h, if_pos (by omega : annual_grid_counts n + 1 > 0)]
    simp [strRep_length]
  · rw [if_neg h, if_neg h]
    by_cases h2 : annual_grid_counts n > 0
    · rw [if_pos h2]
      simp [strRep_length]
    · rw [if_neg h2]
      have hz : annual_grid_counts n = 0 := by omega
      simp [hz, emptyString]

/-- Total characters over the cells 1..9 of a grid (`None` cells count 0). -/
def gridTotalChars (g : Nat → Option String) : Nat :=
  ((List.range 9).map (fun i => cellLen g (i + 1))).sum

lemma list_sum_map_add {α : Type} (l : List α) (f g : α → Nat) :
    (l.map (fun a => f a + g a)).sum = (l.map f).sum + (l.map g).sum := by
  induction l with
  | nil => simp
  | cons a l ih => simp [ih]; omega

lemma sum_count_eq_length (l : List Nat) (h : ∀ x ∈ l, 1 ≤ x ∧ x ≤ 9) :
    ((List.range 9).map (fun i => l.count (i + 1))).sum = l.length := by
  induction l with
  | nil => simp
  | cons x xs ih =>
    have hx := h x (List.mem_cons_self x xs)
    have hxs : ∀ z ∈ xs, 1 ≤ z ∧ z ≤ 9 :=
      fun z hz => h z (List.mem_cons_of_mem x hz)
    have hone : ((List.range 9).map
        (fun i => if (x == i + 1) = true then 1 else 0)).sum = 1 := by
      obtain ⟨hx1, hx2⟩ := hx
      interval_cases x <;> decide
    simp only [List.count_cons]
    rw [list_sum_map_add, ih hxs, hone, List.length_cons]

end Numerology

namespace Numerology

/-- The overlay-active set `{1, 2, 3, 4, 5, 7, 9}`. -/
def overlay_active (n : Nat) : Prop :=
  n = 1 ∨ n = 2 ∨ n = 3 ∨ n = 4 ∨ n = 5 ∨ n = 7 ∨ n = 9

instance (n : Nat) : Decidable (overlay_active n) := by
  unfold overlay_active; infer_instance

/-- `build_mahadasha_base_counts`: natal counts, +1 Mahadasha always, +1
Personal Year if overlay-active, +1 per Basic Number if overlay-active.
(Defined in the pratyantar service; Operation B's `generate_monthly_grids`
never calls it — see `generate_monthly_grids` below.) -/
def build_mahadasha_base_counts (natal_counts : Nat → Nat)
    (maha personal_year : Nat) (basic_numbers : List Nat) : Nat → Nat :=
  let base1 : Nat → Nat := fun n =>
    if n = maha ∧ 1 ≤ maha ∧ maha ≤ 9 then natal_counts n + 1 else natal_counts n
  let base2 : Nat → Nat := fun n =>
    if n = personal_year ∧ 1 ≤ personal_year ∧ personal_year ≤ 9 ∧
        overlay_active personal_year
    then base1 n + 1 else base1 n
  basic_numbers.foldl
    (fun b x => fun n =>
      if n = x ∧ 1 ≤ x ∧ x ≤ 9 ∧ overlay_active x then b n + 1 else b n)
    base2

lemma base_counts_fold (basics : List Nat) :
    ∀ (b : Nat → Nat) (n : Nat),
      (basics.foldl
        (fun b x => fun k =>
          if k = x ∧ 1 ≤ x ∧ x ≤ 9 ∧ overlay_active x then b k + 1 else b k)
        b) n
      = b n + basics.countP
          (fun x => decide (n = x ∧ 1 ≤ x ∧ x ≤ 9 ∧ overlay_active x)) := by
  induction basics with
  | nil => intro b n; simp
  | cons a l ih =>
    intro b n
    simp only [List.foldl_cons, List.countP_cons]
    rw [ih]
    by_cases h : n = a ∧ 1 ≤ a ∧ a ≤ 9 ∧ overlay_active a
    · rw [if_pos h]
      simp only [decide_eq_true_eq]
      rw [if_pos h]
      omega
    · rw [if_neg h]
      simp only [decide_eq_true_eq]
      rw [if_neg h]
      omega

/-- C1 (amended): the extended-base-overlay rule is exactly what
`build_mahadasha_base_counts` computes — natal counts, plus Mahadasha always,
plus Personal Year / each Basic Number only when in the overlay-active set
{1,2,3,4,5,7,9}, so 6 and 8 never receive a Personal-Year or Basic-Number
addition — but Operation B does not build its period grids from it: each
period grid is the annual-overlay counts plus exactly +1 for the period's
Pratyantar number (third conjunct; see also `monthly_grids_annual_overlay`). -/
theorem extended_base_overlay_rule (natal_counts : Nat → Nat)
    (maha personal_year : Nat) (basic_numbers : List Nat) (n : Nat) :
    build_mahadasha_base_counts natal_counts maha personal_year basic_numbers n
        = natal_counts n
          + (if n = maha ∧ 1 ≤ maha ∧ maha ≤ 9 then 1 else 0)
          + (if n = personal_year ∧ 1 ≤ personal_year ∧ personal_year ≤ 9 ∧
                overlay_active personal_year then 1 else 0)
          + basic_numbers.countP
              (fun b => decide (n = b ∧ 1 ≤ b ∧ b ≤ 9 ∧ overlay_active b)) ∧
      ((n = 6 ∨ n = 8) →
        build_mahadasha_base_counts natal_counts maha personal_year
            basic_numbers n
          = natal_counts n
            + (if n = maha ∧ 1 ≤ maha ∧ maha ≤ 9 then 1 else 0)) ∧
      (∀ annual_counts prat k,
        cellLen (build_period_grid annual_counts prat) k
          = annual_counts k + (if k = prat ∧ 1 ≤ prat ∧ prat ≤ 9 then 1 else 0)) := by
  have hmain : build_mahadasha_base_counts natal_counts maha personal_year
      basic_numbers n
      = natal_counts n
        + (if n = maha ∧ 1 ≤ maha ∧ maha ≤ 9 then 1 else 0)
        + (if n = personal_year ∧ 1 ≤ personal_year ∧ personal_year ≤ 9 ∧
              overlay_active personal_year then 1 else 0)
        + basic_numbers.countP
            (fun b => decide (n = b ∧ 1 ≤ b ∧ b ≤ 9 ∧ overlay_active b)) := by
    unfold build_mahadasha_base_counts
    rw [base_counts_fold]
    dsimp only
    split_ifs <;> omega
  refine ⟨hmain, ?_, cellLen_build_period_grid⟩
  intro h68
  rw [hmain]
  have hpy : (if n = personal_year ∧ 1 ≤ personal_year ∧ personal_year ≤ 9 ∧
      overlay_active personal_year then 1 else 0) = 0 := by
    rw [if_neg]
    rintro ⟨rfl, _, _, hact⟩
    unfold overlay_active at hact
    omega
  have hbasic : basic_numbers.countP
      (fun b => decide (n = b ∧ 1 ≤ b ∧ b ≤ 9 ∧ overlay_active b)) = 0 := by
    rw [List.countP_eq_zero]
    intro a _
    simp only [decide_eq_true_eq]
    rintro ⟨rfl, _, _, hact⟩
    unfold overlay_active at hact
    omega
  omega

end Numerology

namespace Numerology

/-- Successor day in the proleptic Gregorian calendar.  Used only to carry the
calendar form of Pratyantar period start dates (the source keeps `datetime`
values); all ordering and span reasoning is on day numbers. -/
def nextDay (dt : Date) : Date :=
  if dt.day < daysInMonth dt.year dt.month then ⟨dt.year, dt.month, dt.day + 1⟩
  else if dt.month < 12 then ⟨dt.year, dt.month + 1, 1⟩
  else ⟨dt.year + 1, 1, 1⟩

/-- `dt + timedelta(days = k)` in calendar form. -/
def addDaysD (dt : Date) : Nat → Date
  | 0 => dt
  | k + 1 => addDaysD (nextDay dt) k

/-- One emitted Pratyantar period.  The source stores `multi` and `pratyantar`
(always equal), start/end datetimes plus their formatted strings, and
`duration_days`; the start is kept here both as a calendar date (for the
display fields derived from it) and as its day number. -/
structure PPeriod where
  multi : Nat
  startD : Date
  startRd : Nat
  endRd : Nat
  durationDays : Nat
deriving DecidableEq, Repr

/-- Loop of `generate_pratyantar_periods`, one fuel unit per iteration.  The
branch guarded by `nextBdRd ≤ ...` is the source's defensive clamp
("shouldn't happen due to check above"); `some []` models `break`. -/
def pratyantarAux (nextBdRd : Nat) : Nat → Date → Nat → Nat → Option (List PPeriod)
  | 0, _, _, _ => none
  | fuel + 1, curD, curRd, multi =>
    if curRd < nextBdRd then
      let full_period_duration := multi * 8
      let remaining_days := nextBdRd - curRd
      if remaining_days < full_period_duration then some []
      else
        let end1 := curRd + full_period_duration - 1
        if nextBdRd ≤ end1 then
          let end2 := nextBdRd - 1
          let dd := end2 - curRd + 1
          if dd < full_period_duration then some []
          else
            match pratyantarAux nextBdRd fuel (addDaysD curD (end2 + 1 - curRd))
                (end2 + 1) (if multi = 9 then 1 else multi + 1) with
            | none => none
            | some rest => some (⟨multi, curD, curRd, end2, dd⟩ :: rest)
        else
          match pratyantarAux nextBdRd fuel (addDaysD curD full_period_duration)
              (end1 + 1) (if multi = 9 then 1 else multi + 1) with
          | none => none
          | some rest =>
            some (⟨multi, curD, curRd, end1, full_period_duration⟩ :: rest)
    else some []

/-- `generate_pratyantar_periods(year, day, month, dob_year, dob_root)`.
(`dob_year` is accepted and unused, as in the source.) -/
def generate_pratyantar_periods (year day month dob_year : Nat)
    (dob_root : Option Nat) : Option (List PPeriod) :=
  match projectBirthday year month day with
  | none => none
  | some year_birthday =>
    let year_antardasha := calculate_antardasha year day month year_birthday dob_root
    match projectBirthday (year + 1) month day with
    | none => none
    | some next_birthday =>
      pratyantarAux (dateToRd next_birthday) (dateToRd next_birthday + 1)
        year_birthday (dateToRd year_birthday) year_antardasha

/-- The day actually used when projecting a birthday (month, day) into year
`y`: the day itself if it exists in that month, else the 28 fallback. -/
def projDay (y m d : Nat) : Nat :=
  if d ≤ daysInMonth y m then d else 28

lemma daysInMonth_ge_28 (y m : Nat) : 28 ≤ daysInMonth y m := by
  unfold daysInMonth
  split_ifs <;> omega

lemma projectBirthday_eq {y m d : Nat} (hm1 : 1 ≤ m) (hm2 : m ≤ 12)
    (hd1 : 1 ≤ d) (hy1 : 1 ≤ y) (hy2 : y ≤ 9999) :
    projectBirthday y m d = some ⟨y, m, projDay y m d⟩ := by
  unfold projectBirthday projDay mkDate
  by_cases h : d ≤ daysInMonth y m
  · rw [if_pos h, if_pos ⟨hy1, hy2, hm1, hm2, hd1, h⟩]
  · rw [if_neg h, if_neg (fun hv => h hv.2.2.2.2.2), if_pos
      ⟨hy1, hy2, hm1, hm2, by omega, daysInMonth_ge_28 y m⟩]

lemma projDay_bounds (y m d : Nat) (hd1 : 1 ≤ d) (hd2 : d ≤ 31) :
    1 ≤ projDay y m d ∧ projDay y m d ≤ 31 ∧
      (projDay y m d = d ∨ (28 ≤ projDay y m d ∧ 28 ≤ d)) := by
  unfold projDay
  split_ifs with h
  · exact ⟨hd1, hd2, Or.inl rfl⟩
  · have := daysInMonth_ge_28 y m
    exact ⟨by omega, by omega, Or.inr ⟨by omega, by omega⟩⟩

/-- Invariants of the Pratyantar loop, for the suffix generated from day
number `curRd` with current cycle value `multi`. -/
structure PPProps (nextBdRd curRd multi : Nat) (ps : List PPeriod) : Prop where
  head_start : ∀ p0, ps.head? = some p0 → p0.multi = multi ∧ p0.startRd = curRd ∧
      p0.durationDays = multi * 8
  empty_cond : ps = [] → nextBdRd ≤ curRd ∨ nextBdRd - curRd < multi * 8
  nonempty_cond : curRd < nextBdRd → multi * 8 ≤ nextBdRd - curRd → ps ≠ []
  mem_props : ∀ p ∈ ps, 1 ≤ p.multi ∧ p.multi ≤ 9 ∧
      p.endRd + 1 = p.startRd + p.multi * 8 ∧ p.endRd < nextBdRd ∧
      curRd ≤ p.startRd ∧ p.durationDays = p.multi * 8
  chain : List.Chain' (fun p q => q.startRd = p.endRd + 1 ∧
      q.multi = (if p.multi = 9 then 1 else p.multi + 1)) ps
  disjoint : List.Pairwise (fun p q => p.endRd < q.startRd) ps
  last_rem : ∀ pl, ps.getLast? = some pl →
      nextBdRd - (pl.endRd + 1) < (if pl.multi = 9 then 1 else pl.multi + 1) * 8

lemma pratyantarAux_total (nextBdRd : Nat) :
    ∀ fuel curD curRd multi, 1 ≤ multi → multi ≤ 9 → 1 ≤ curRd →
      nextBdRd - curRd < fuel →
      ∃ ps, pratyantarAux nextBdRd fuel curD curRd multi = some ps ∧
        PPProps nextBdRd curRd multi ps := by
  intro fuel
  induction fuel with
  | zero => intro curD curRd multi _ _ _ hfuel; omega
  | succ fuel ih =>
    intro curD curRd multi hm1 hm9 hcur hfuel
    by_cases hlt : curRd < nextBdRd
    · by_cases hrem : nextBdRd - curRd < multi * 8
      · refine ⟨[], ?_, ?_⟩
        · simp only [pratyantarAux, if_pos hlt, if_pos hrem]
        · refine ⟨?_, ?_, ?_, ?_, ?_, ?_, ?_⟩
          · intro p0 hp0; cases hp0
          · intro _; right; exact hrem
          · intro _ hfit _; omega
          · intro p hp; cases hp
          · exact List.chain'_nil
          · exact List.Pairwise.nil
          · intro pl hpl; cases hpl
      · push_neg at hrem
        have hnoclamp : ¬ nextBdRd ≤ curRd + multi * 8 - 1 := by omega
        obtain ⟨ps', heq', hp'⟩ := ih (addDaysD curD (multi * 8))
          (curRd + multi * 8 - 1 + 1) (if multi = 9 then 1 else multi + 1)
          (by split_ifs <;> omega) (by split_ifs <;> omega) (by omega) (by omega)
        refine ⟨⟨multi, curD, curRd, curRd + multi * 8 - 1, multi * 8⟩ :: ps',
          ?_, ?_⟩
        · simp only [pratyantarAux, if_pos hlt, if_neg (by omega :
            ¬ nextBdRd - curRd < multi * 8), if_neg hnoclamp, heq']
        · refine ⟨?_, ?_, ?_, ?_, ?_, ?_, ?_⟩
          · intro p0 hp0
            simp only [List.head?_cons, Option.some.injEq] at hp0
            subst hp0
            exact ⟨rfl, rfl, rfl⟩
          · intro h; cases h
          · intro _ _ h; cases h
          · intro p hp
            rcases List.mem_cons.mp hp with hp | hp
            · subst hp
              refine ⟨hm1, hm9, by dsimp only; omega, by dsimp only; omega,
                Nat.le_refl _, rfl⟩
            · obtain ⟨q1, q2, q3, q4, q5, q6⟩ := hp'.mem_props p hp
              exact ⟨q1, q2, q3, q4, by omega, q6⟩
          · rw [List.chain'_cons']
            refine ⟨?_, hp'.chain⟩
            intro b hb
            obtain ⟨hb1, hb2⟩ := hp'.head_start b hb
            dsimp only
            exact ⟨hb2.1, hb1⟩
          · rw [List.pairwise_cons]
            refine ⟨?_, hp'.disjoint⟩
            intro q hq
            obtain ⟨_, _, _, _, q5, _⟩ := hp'.mem_props q hq
            dsimp only
            omega
          · intro pl hpl
            rcases ps' with _ | ⟨q, tail⟩
            · simp only [List.getLast?_singleton, Option.some.injEq] at hpl
              subst hpl
              have hec := hp'.empty_cond rfl
              dsimp only
              split_ifs at hec ⊢ with h9
              · omega
              · omega
            · rw [List.getLast?_cons_cons] at hpl
              exact hp'.last_rem pl hpl
    · refine ⟨[], ?_, ?_⟩
      · simp only [pratyantarAux, if_neg hlt]
      · refine ⟨?_, ?_, ?_, ?_, ?_, ?_, ?_⟩
        · intro p0 hp0; cases hp0
        · intro _; left; omega
        · intro h _ _; omega
        · intro p hp; cases hp
        · exact List.chain'_nil
        · exact List.Pairwise.nil
        · intro pl hpl; cases hpl

end Numerology

namespace Numerology

/-- C4 (confirmed): for every valid birthdate and target year, the Pratyantar
periods for the birthday-to-birthday year start at the year's Antardasha
value, cycle 9->1 and otherwise +1, each span exactly multi*8 days inclusive,
are contiguous and non-overlapping, and a period whose full multi*8 days do
not fit before the next birthday is never emitted (the trailing remainder is
discarded: whatever room is left after the last period is smaller than the
next period's full duration). -/
theorem pratyantar_period_structure
    (ty day month dob_year : Nat) (dob_root : Option Nat)
    (hm1 : 1 ≤ month) (hm2 : month ≤ 12) (hd1 : 1 ≤ day) (hd2 : day ≤ 31)
    (hy1 : 1900 ≤ ty) (hy2 : ty ≤ 2200) :
    ∃ yb nb ps,
      projectBirthday ty month day = some yb ∧
      projectBirthday (ty + 1) month day = some nb ∧
      generate_pratyantar_periods ty day month dob_year dob_root = some ps ∧
      ps ≠ [] ∧
      (∀ p0, ps.head? = some p0 →
        p0.multi = calculate_antardasha ty day month yb dob_root ∧
        p0.startRd = dateToRd yb ∧ p0.durationDays = p0.multi * 8) ∧
      (∀ p ∈ ps, 1 ≤ p.multi ∧ p.multi ≤ 9 ∧
        p.endRd + 1 = p.startRd + p.multi * 8 ∧ p.endRd < dateToRd nb ∧
        p.durationDays = p.multi * 8) ∧
      List.Chain' (fun p q => q.startRd = p.endRd + 1 ∧
        q.multi = (if p.multi = 9 then 1 else p.multi + 1)) ps ∧
      List.Pairwise (fun p q => p.endRd < q.startRd) ps ∧
      (∀ pl, ps.getLast? = some pl →
        dateToRd nb - (pl.endRd + 1)
          < (if pl.multi = 9 then 1 else pl.multi + 1) * 8) := by
  have hpb1 := projectBirthday_eq hm1 hm2 hd1
    (show 1 ≤ ty by omega) (show ty ≤ 9999 by omega)
  have hpb2 := projectBirthday_eq hm1 hm2 hd1
    (show 1 ≤ ty + 1 by omega) (show ty + 1 ≤ 9999 by omega)
  obtain ⟨hp11, hp12, hp13⟩ := projDay_bounds ty month day hd1 hd2
  obtain ⟨hp21, hp22, hp23⟩ := projDay_bounds (ty + 1) month day hd1 hd2
  have hstep := (dateToRd_year_step ty month (projDay ty month day)
    (by omega)).1
  have hday := dateToRd_day (ty + 1) month (projDay (ty + 1) month day)
    (projDay ty month day)
  have hspan : dateToRd ⟨ty, month, projDay ty month day⟩ + 362
      ≤ dateToRd ⟨ty + 1, month, projDay (ty + 1) month day⟩ := by
    rcases hp13 with h | h <;> rcases hp23 with h2 | h2 <;> omega
  have hpos : 1 ≤ dateToRd ⟨ty, month, projDay ty month day⟩ :=
    dateToRd_pos _ hp11
  have hrange := calculate_antardasha_range ty day month
    ⟨ty, month, projDay ty month day⟩ dob_root
  obtain ⟨ps, heq, hp⟩ := pratyantarAux_total
    (dateToRd ⟨ty + 1, month, projDay (ty + 1) month day⟩)
    (dateToRd ⟨ty + 1, month, projDay (ty + 1) month day⟩ + 1)
    ⟨ty, month, projDay ty month day⟩
    (dateToRd ⟨ty, month, projDay ty month day⟩)
    (calculate_antardasha ty day month ⟨ty, month, projDay ty month day⟩ dob_root)
    hrange.1 hrange.2 hpos (by omega)
  refine ⟨⟨ty, month, projDay ty month day⟩,
    ⟨ty + 1, month, projDay (ty + 1) month day⟩, ps, hpb1, hpb2, ?_, ?_, ?_, ?_,
    hp.chain, hp.disjoint, hp.last_rem⟩
  · simp only [generate_pratyantar_periods, hpb1, hpb2]
    exact heq
  · exact hp.nonempty_cond (by omega) (by omega)
  · intro p0 hp0
    obtain ⟨h1, h2, h3⟩ := hp.head_start p0 hp0
    exact ⟨h1, h2, by rw [h3, h1]⟩
  · intro p hpp
    obtain ⟨q1, q2, q3, q4, _, q6⟩ := hp.mem_props p hpp
    exact ⟨q1, q2, q3, q4, q6⟩

/-- Witness for `pratyantar_period_structure`: target year 2024 for birthdate
26/02/1982 with root 8. -/
theorem pratyantar_period_structure_witness :
    (1 ≤ 2 ∧ (2 : Nat) ≤ 12 ∧ 1 ≤ 26 ∧ (26 : Nat) ≤ 31 ∧
        1900 ≤ 2024 ∧ (2024 : Nat) ≤ 2200) ∧
      (∃ yb nb ps,
        projectBirthday 2024 2 26 = some yb ∧
        projectBirthday (2024 + 1) 2 26 = some nb ∧
        generate_pratyantar_periods 2024 26 2 1982 (some 8) = some ps ∧
        ps ≠ [] ∧
        (∀ p0, ps.head? = some p0 →
          p0.multi = calculate_antardasha 2024 26 2 yb (some 8) ∧
          p0.startRd = dateToRd yb ∧ p0.durationDays = p0.multi * 8) ∧
        (∀ p ∈ ps, 1 ≤ p.multi ∧ p.multi ≤ 9 ∧
          p.endRd + 1 = p.startRd + p.multi * 8 ∧ p.endRd < dateToRd nb ∧
          p.durationDays = p.multi * 8) ∧
        List.Chain' (fun p q => q.startRd = p.endRd + 1 ∧
          q.multi = (if p.multi = 9 then 1 else p.multi + 1)) ps ∧
        List.Pairwise (fun p q => p.endRd < q.startRd) ps ∧
        (∀ pl, ps.getLast? = some pl →
          dateToRd nb - (pl.endRd + 1)
            < (if pl.multi = 9 then 1 else pl.multi + 1) * 8)) :=
  ⟨⟨by decide, by decide, by decide, by decide, by decide, by decide⟩,
    pratyantar_period_structure 2024 26 2 1982 (some 8) (by decide) (by decide)
      (by decide) (by decide) (by decide) (by decide)⟩

end Numerology

namespace Numerology

/-- Append one digit character to cell `k`
(`grid[k] = (grid.get(k) or "") + str(k)`). -/
def addDigitStr (g : Nat → String) (k : Nat) : Nat → String :=
  fun n => if n = k then g n ++ strRep k 1 else g n

lemma addDigitStr_length (g : Nat → String) (k n : Nat) :
    (addDigitStr g k n).length = (g n).length + (if n = k then 1 else 0) := by
  unfold addDigitStr
  split_ifs with h
  · simp [strRep_length]
  · simp

/-- One entry of Operation B's output (`maha_number` is display only; the grid
is affected by `antar_number`, the period's Pratyantar value). -/
structure MonthlyEntry where
  year : Nat
  monthIdx : Nat
  startD : Date
  startRd : Nat
  endRd : Nat
  maha : Option Nat
  antar : Nat
  personal_year : Nat
  personal_month : Nat
  gridDict : Nat → Option String
  grid : List (List (Option String))

/-- Per-period loop of `generate_monthly_grids`
(`for period_index, period in enumerate(periods, start=1)`). -/
def buildMonthlyEntries (target_year : Nat) (timeline : List MPeriod)
    (annual_counts : Nat → Nat) (month day : Nat) :
    List PPeriod → Nat → List MonthlyEntry
  | [], _ => []
  | p :: rest, idx =>
    let period_maha := get_mahadasha_for_date timeline p.startRd
    let personal_year := calculate_personal_year month day target_year
    let personal_month := calculate_personal_month personal_year p.startD.month
    let period_grid_dict := build_period_grid annual_counts p.multi
    ⟨target_year, idx, p.startD, p.startRd, p.endRd, period_maha, p.multi,
      personal_year, personal_month, period_grid_dict,
      get_natal_grid_array period_grid_dict⟩ ::
      buildMonthlyEntries target_year timeline annual_counts month day rest (idx + 1)

/-- `generate_monthly_grids(dob_date, root, month, day, target_year,
natal_grid_dict)`: 120-year timeline, target-year Mahadasha and Antardasha,
annual grid = natal + Mahadasha + Antardasha (string cells), then one period
grid per Pratyantar period = annual counts + 1 for the period's Pratyantar. -/
def generate_monthly_grids (dob : Date) (root month day target_year : Nat)
    (natal_grid_dict : Nat → Option String) : Option (List MonthlyEntry) :=
  match generate_mahadasha_timeline dob root 120 with
  | none => none
  | some timeline =>
    match projectBirthday target_year month day with
    | none => none
    | some year_birthday =>
      let maha := get_mahadasha_for_date timeline (dateToRd year_birthday)
      let antar := calculate_antardasha target_year day month year_birthday
        (some root)
      let annual0 : Nat → String := fun n => (natal_grid_dict n).getD emptyString
      let annual1 : Nat → String :=
        match maha with
        | some mh => if 1 ≤ mh ∧ mh ≤ 9 then addDigitStr annual0 mh else annual0
        | none => annual0
      let annual2 : Nat → String :=
        if 1 ≤ antar ∧ antar ≤ 9 then addDigitStr annual1 antar else annual1
      let annual_counts : Nat → Nat := fun n => (annual2 n).length
      match generate_pratyantar_periods target_year day month dob.year
          (some root) with
      | none => none
      | some periods =>
        some (buildMonthlyEntries target_year timeline annual_counts month day
          periods 1)

/-- Operation B (`POST /monthly-grids`): request validation, natal grid from
the birthdate, then `generate_monthly_grids`. -/
def monthly_grids_op (day month year target_year : Nat) :
    Option (List MonthlyEntry) :=
  if 1 ≤ day ∧ day ≤ 31 ∧ 1 ≤ month ∧ month ≤ 12 ∧ 1900 ≤ year ∧ year ≤ 2100 ∧
      1900 ≤ target_year ∧ target_year ≤ 2200 then
    match mkDate year month day with
    | none => none
    | some dob_date =>
      generate_monthly_grids dob_date (calculate_root_number day) month day
        target_year
        (build_natal_grid (build_natal_grid_digits day month year
          (calculate_destiny_number (calculate_root_number day)
            (calculate_month_number month) (calculate_year_number year))))
  else none

lemma buildMonthlyEntries_mem (ty : Nat) (tl : List MPeriod) (ac : Nat → Nat)
    (month day : Nat) :
    ∀ (ps : List PPeriod) (idx : Nat) (e : MonthlyEntry),
      e ∈ buildMonthlyEntries ty tl ac month day ps idx →
      ∃ p ∈ ps, e.antar = p.multi ∧ e.gridDict = build_period_grid ac p.multi := by
  intro ps
  induction ps with
  | nil => intro idx e he; cases he
  | cons p rest ih =>
    intro idx e he
    rcases List.mem_cons.mp he with he | he
    · subst he
      exact ⟨p, List.mem_cons_self p rest, rfl, rfl⟩
    · obtain ⟨q, hq, h1, h2⟩ := ih (idx + 1) e he
      exact ⟨q, List.mem_cons_of_mem p hq, h1, h2⟩

lemma projectBirthday_good {m d : Nat} (h : GoodMD m d) {y : Nat}
    (hy1 : 1 ≤ y) (hy2 : y ≤ 9999) :
    projectBirthday y m d = some ⟨y, m, d⟩ := by
  unfold projectBirthday
  rw [mkDate_good h hy1 hy2]

lemma daysInMonth_le_31 (y m : Nat) : daysInMonth y m ≤ 31 := by
  unfold daysInMonth
  split_ifs <;> omega

end Numerology

namespace Numerology

lemma generate_monthly_grids_eq
    (dob : Date) (root month day target_year : Nat)
    (natalDict : Nat → Option String) (tl : List MPeriod) (yb : Date) (mh : Nat)
    (ps : List PPeriod)
    (htl : generate_mahadasha_timeline dob root 120 = some tl)
    (hyb : projectBirthday target_year month day = some yb)
    (hmh : get_mahadasha_for_date tl (dateToRd yb) = some mh)
    (hmh1 : 1 ≤ mh) (hmh9 : mh ≤ 9)
    (hant : 1 ≤ calculate_antardasha target_year day month yb (some root) ∧
      calculate_antardasha target_year day month yb (some root) ≤ 9)
    (hps : generate_pratyantar_periods target_year day month dob.year
      (some root) = some ps) :
    generate_monthly_grids dob root month day target_year natalDict
      = some (buildMonthlyEntries target_year tl
          (fun n => (addDigitStr
              (addDigitStr (fun k => (natalDict k).getD emptyString) mh)
              (calculate_antardasha target_year day month yb (some root)) n).length)
          month day ps 1) := by
  unfold generate_monthly_grids
  rw [htl]
  dsimp only
  rw [hyb]
  dsimp only
  rw [hmh]
  dsimp only
  simp only [if_pos hant, if_pos (show 1 ≤ mh ∧ mh ≤ 9 from ⟨hmh1, hmh9⟩)]
  rw [hps]

/-- C2 (amended): for every valid non-Feb-29 birthdate and target year with
`birth_year <= target_year <= birth_year + 119`, Operation B produces its
period grids from the annual overlay: each period grid cell equals the natal
count, plus exactly +1 for the year's Mahadasha number (found by the timeline
lookup), plus exactly +1 for the year's Antardasha number (both always added,
no active-set rule), plus exactly +1 for the period's Pratyantar number; the
Personal Month number is never added. -/
theorem monthly_grids_annual_overlay
    (y m d ty : Nat)
    (hv : validDateP y m d) (h29 : ¬ (m = 2 ∧ d = 29))
    (hy1 : 1900 ≤ y) (hy2 : y ≤ 2100)
    (hty1 : y ≤ ty) (hty2 : ty ≤ y + 119) (hty3 : ty ≤ 2200) :
    ∃ tl mh entries,
      generate_mahadasha_timeline ⟨y, m, d⟩ (calculate_root_number d) 120
          = some tl ∧
      get_mahadasha_for_date tl (dateToRd ⟨ty, m, d⟩) = some mh ∧
      1 ≤ mh ∧ mh ≤ 9 ∧
      monthly_grids_op d m y ty = some entries ∧
      entries ≠ [] ∧
      (∀ e ∈ entries,
        1 ≤ e.antar ∧ e.antar ≤ 9 ∧
        ∀ n, cellLen e.gridDict n
          = (build_natal_grid_digits d m y
                (calculate_destiny_number (calculate_root_number d)
                  (calculate_month_number m) (calculate_year_number y))).count n
            + (if n = mh then 1 else 0)
            + (if n = calculate_antardasha ty d m ⟨ty, m, d⟩
                  (some (calculate_root_number d)) then 1 else 0)
            + (if n = e.antar then 1 else 0)) := by
  have hmd := goodMD_of_valid hv h29
  have hm1 : 1 ≤ m := hmd.1
  have hm2 : m ≤ 12 := hmd.2.1
  have hd1 : 1 ≤ d := hmd.2.2.1
  have hd31 : d ≤ 31 := by
    have := hv.2.2.2.2.2
    have := daysInMonth_le_31 y m
    omega
  have hrootr : 1 ≤ calculate_root_number d ∧ calculate_root_number d ≤ 9 :=
    reduce_to_single_range d hd1
  obtain ⟨tl, htl0, htlp⟩ := mahadashaAux_total m d hmd (y + 120) (by omega)
    (by omega) (dateToRd ⟨y + 120, m, d⟩ + 1) y (calculate_root_number d)
    hv.1 hrootr.1 hrootr.2 (by omega)
  have hgen_tl : generate_mahadasha_timeline ⟨y, m, d⟩
      (calculate_root_number d) 120 = some tl := by
    unfold generate_mahadasha_timeline
    dsimp only
    rw [mkDate_good hmd (show 1 ≤ y + 120 by omega) (show y + 120 ≤ 9999 by omega)]
    exact htl0
  have hq1 : dateToRd ⟨y, m, d⟩ ≤ dateToRd ⟨ty, m, d⟩ :=
    dateToRd_year_le m d hv.1 hty1
  have hq2 : dateToRd ⟨ty, m, d⟩ < dateToRd ⟨y + 120, m, d⟩ :=
    dateToRd_year_lt m d (by omega) (by omega)
  have hcnt := htlp.covers (dateToRd ⟨ty, m, d⟩) hq1 hq2
  obtain ⟨p, hptl, hpc1, hpc2, hlk⟩ :=
    lookup_finds_first (dateToRd ⟨ty, m, d⟩) tl hcnt
  obtain ⟨_, _, _, hpd1, hpd9, _, _, _⟩ := htlp.mem_props p hptl
  have hyb : projectBirthday ty m d = some ⟨ty, m, d⟩ :=
    projectBirthday_good hmd (by omega) (by omega)
  have hyb2 : projectBirthday (ty + 1) m d = some ⟨ty + 1, m, d⟩ :=
    projectBirthday_good hmd (by omega) (by omega)
  have hantr := calculate_antardasha_range ty d m ⟨ty, m, d⟩
    (some (calculate_root_number d))
  have hstep := (dateToRd_year_step ty m d (by omega)).1
  have hpos : 1 ≤ dateToRd ⟨ty, m, d⟩ := dateToRd_pos _ hd1
  obtain ⟨ps, hps0, hpsp⟩ := pratyantarAux_total (dateToRd ⟨ty + 1, m, d⟩)
    (dateToRd ⟨ty + 1, m, d⟩ + 1) ⟨ty, m, d⟩ (dateToRd ⟨ty, m, d⟩)
    (calculate_antardasha ty d m ⟨ty, m, d⟩ (some (calculate_root_number d)))
    hantr.1 hantr.2 hpos (by omega)
  have hps : generate_pratyantar_periods ty d m
      ((⟨y, m, d⟩ : Date).year) (some (calculate_root_number d)) = some ps := by
    simp only [generate_pratyantar_periods, hyb, hyb2]
    exact hps0
  have hgen := generate_monthly_grids_eq ⟨y, m, d⟩ (calculate_root_number d)
    m d ty
    (build_natal_grid (build_natal_grid_digits d m y
      (calculate_destiny_number (calculate_root_number d)
        (calculate_month_number m) (calculate_year_number y))))
    tl ⟨ty, m, d⟩ p.dasha ps hgen_tl hyb hlk hpd1 hpd9 hantr hps
  have hop : monthly_grids_op d m y ty
      = generate_monthly_grids ⟨y, m, d⟩ (calculate_root_number d) m d ty
        (build_natal_grid (build_natal_grid_digits d m y
          (calculate_destiny_number (calculate_root_number d)
            (calculate_month_number m) (calculate_year_number y)))) := by
    unfold monthly_grids_op
    rw [if_pos ⟨hd1, hd31, hm1, hm2, hy1, hy2, by omega, hty3⟩]
    rw [show mkDate y m d = some ⟨y, m, d⟩ from by unfold mkDate; rw [if_pos hv]]
  have hps_ne : ps ≠ [] := by
    apply hpsp.nonempty_cond (by omega)
    have : calculate_antardasha ty d m ⟨ty, m, d⟩
        (some (calculate_root_number d)) ≤ 9 := hantr.2
    omega
  refine ⟨tl, p.dasha, _, hgen_tl, hlk, hpd1, hpd9, by rw [hop, hgen], ?_, ?_⟩
  · rcases ps with _ | ⟨q, rest⟩
    · exact absurd rfl hps_ne
    · simp only [buildMonthlyEntries]
      exact List.cons_ne_nil _ _
  · intro e he
    obtain ⟨q, hqps, hea, heg⟩ := buildMonthlyEntries_mem ty tl _ m d ps 1 e he
    obtain ⟨hqm1, hqm9, _, _, _, _⟩ := hpsp.mem_props q hqps
    refine ⟨by omega, by omega, ?_⟩
    intro n
    rw [heg, cellLen_build_period_grid]
    have hlast : (if n = q.multi ∧ 1 ≤ q.multi ∧ q.multi ≤ 9 then 1 else 0)
        = (if n = e.antar then 1 else 0) := by
      rw [hea]
      by_cases hnn : n = q.multi
      · rw [if_pos ⟨hnn, hqm1, hqm9⟩, if_pos hnn]
      · rw [if_neg (fun hc => hnn hc.1), if_neg hnn]
    rw [hlast]
    simp only [addDigitStr_length]
    have hnat : (((build_natal_grid (build_natal_grid_digits d m y
        (calculate_destiny_number (calculate_root_number d)
          (calculate_month_number m) (calculate_year_number y)))) n).getD
          emptyString).length
        = (build_natal_grid_digits d m y
            (calculate_destiny_number (calculate_root_number d)
              (calculate_month_number m) (calculate_year_number y))).count n :=
      cellLen_build_natal_grid _ n
    rw [hnat]

end Numerology

namespace Numerology

/-- Witness for `monthly_grids_annual_overlay` at birthdate 26/02/1982,
target year 2024. -/
theorem monthly_grids_annual_overlay_witness :
    validDateP 1982 2 26 ∧
      (∃ tl mh entries,
        generate_mahadasha_timeline ⟨1982, 2, 26⟩ (calculate_root_number 26) 120
            = some tl ∧
        get_mahadasha_for_date tl (dateToRd ⟨2024, 2, 26⟩) = some mh ∧
        1 ≤ mh ∧ mh ≤ 9 ∧
        monthly_grids_op 26 2 1982 2024 = some entries ∧
        entries ≠ [] ∧
        (∀ e ∈ entries,
          1 ≤ e.antar ∧ e.antar ≤ 9 ∧
          ∀ n, cellLen e.gridDict n
            = (build_natal_grid_digits 26 2 1982
                  (calculate_destiny_number (calculate_root_number 26)
                    (calculate_month_number 2) (calculate_year_number 1982))).count n
              + (if n = mh then 1 else 0)
              + (if n = calculate_antardasha 2024 26 2 ⟨2024, 2, 26⟩
                    (some (calculate_root_number 26)) then 1 else 0)
              + (if n = e.antar then 1 else 0))) :=
  ⟨by decide,
    monthly_grids_annual_overlay 1982 2 26 2024 (by decide) (by decide)
      (by decide) (by decide) (by decide) (by decide) (by decide)⟩

/-- C2 counterexample: for birthdate 01/01/1900 and target year 2021 — both
valid Operation B inputs — the fixed 120-year timeline does not reach the
target year, the Mahadasha lookup returns not-found, and the produced period
grids carry only natal + Antardasha + Pratyantar characters (6 = 4 + 2): the
"always added" Mahadasha +1 is silently missing, so the claim fails as
universally stated. -/
theorem monthly_grids_missing_maha :
    (generate_mahadasha_timeline ⟨1900, 1, 1⟩ (calculate_root_number 1) 120).map
        (fun tl => get_mahadasha_for_date tl (dateToRd ⟨2021, 1, 1⟩))
      = some none ∧
    ((monthly_grids_op 1 1 1900 2021).map
        (fun es => es.map (fun e => gridTotalChars e.gridDict))).map List.head?
      = some (some 6) ∧
    (build_natal_grid_digits 1 1 1900
        (calculate_destiny_number (calculate_root_number 1)
          (calculate_month_number 1) (calculate_year_number 1900))).length
      = 4 :=
  ⟨by decide, by decide, by decide⟩

/-- C1 counterexample: for birthdate 30/06/1986 and target year 2025, the
year's Mahadasha is 9, Personal Year is 9 and the Basic Numbers are [3, 7]
(both overlay-active), so the extended base overlay puts 3 characters in cell
3 before the Pratyantar addition (natal count 2, +1 for Basic Number 3); but
the first period grid Operation B actually produces has only the natal 2
characters in cell 3 (its Pratyantar is 9): period grids are not built from
the extended base overlay. -/
theorem period_grid_not_extended_base :
    ((monthly_grids_op 30 6 1986 2025).bind List.head?).map
        (fun e => (cellLen e.gridDict 3, e.antar)) = some (2, 9) ∧
    (generate_mahadasha_timeline ⟨1986, 6, 30⟩ (calculate_root_number 30) 120).map
        (fun tl => get_mahadasha_for_date tl (dateToRd ⟨2025, 6, 30⟩))
      = some (some 9) ∧
    calculate_personal_year 6 30 2025 = 9 ∧
    calculate_basic_numbers 30 2025 = [3, 7] ∧
    build_mahadasha_base_counts
        (fun n => (build_natal_grid_digits 30 6 1986
          (calculate_destiny_number (calculate_root_number 30)
            (calculate_month_number 6) (calculate_year_number 1986))).count n)
        9 9 (calculate_basic_numbers 30 2025) 3
      + (if (3 : Nat) = 9 then 1 else 0) = 3 :=
  ⟨by decide, by decide, by decide, by decide, by decide⟩

end Numerology

namespace Numerology

/-- One row of `generate_year_table`. -/
structure YearTableEntry where
  year : Nat
  reviewRd : Nat
  maha : Option Nat
  antar : Nat
deriving DecidableEq, Repr

/-- `generate_year_table(dob_date, root, month, day, start_year, end_year)`:
generate a timeline covering at least 120 years (or up to `end_year` plus a
10-year buffer), then for each year of the range record the projected review
date, the Mahadasha lookup result and the Antardasha. -/
def generate_year_table (dob : Date) (root month day : Nat)
    (start_year end_year : Option Nat) : Option (List YearTableEntry) :=
  let sy := start_year.getD dob.year
  let ey := end_year.getD (dob.year + 100)
  let years_ahead := max (ey - dob.year + 10) 120
  match generate_mahadasha_timeline dob root years_ahead with
  | none => none
  | some timeline =>
    ((List.range (ey + 1 - sy)).map (fun i => sy + i)).mapM
      (fun yr =>
        (projectBirthday yr month day).map (fun review_date =>
          ⟨yr, dateToRd review_date,
            get_mahadasha_for_date timeline (dateToRd review_date),
            calculate_antardasha yr day month review_date (some root)⟩))

/-- One entry of Operation A's `year_grids` output. -/
structure YearGridEntry where
  year : Nat
  startRd : Nat
  endRd : Nat
  maha : Option Nat
  antar : Nat
  gridDict : Nat → Option String
  grid : List (List (Option String))

/-- Body of the per-year loop of `calculate_numerology` that builds one year
grid: annual overlay = natal + Mahadasha + Antardasha; when the year table has
no Mahadasha the lookup is retried against the timeline (the recomputed review
date equals `period_start`), and when that also fails the Mahadasha addition
is skipped and `maha_number` stays `None`. -/
def build_year_grid_entry (natal_grid_dict : Nat → Option String)
    (mahadasha_timeline : List MPeriod) (month day : Nat)
    (ye : YearTableEntry) : Option YearGridEntry :=
  match projectBirthday ye.year month day with
  | none => none
  | some period_start =>
    match (projectBirthday (ye.year + 1) month day).map
        (fun dt => dateToRd dt - 1) with
    | none => none
    | some period_end_rd =>
      let maha : Option Nat :=
        match ye.maha with
        | some v => some v
        | none => get_mahadasha_for_date mahadasha_timeline (dateToRd period_start)
      let annual0 : Nat → String := fun n => (natal_grid_dict n).getD emptyString
      let annual1 : Nat → String :=
        match maha with
        | some mh => if 1 ≤ mh ∧ mh ≤ 9 then addDigitStr annual0 mh else annual0
        | none => annual0
      let annual2 : Nat → String :=
        if 1 ≤ ye.antar ∧ ye.antar ≤ 9 then addDigitStr annual1 ye.antar
        else annual1
      let gridDict : Nat → Option String :=
        fun n => if annual2 n = emptyString then none else some (annual2 n)
      some ⟨ye.year, dateToRd period_start, period_end_rd, maha, ye.antar,
        gridDict, get_natal_grid_array gridDict⟩

/-- Result of Operation A's `calculate_numerology`. -/
structure CalcResult where
  day : Nat
  month : Nat
  year : Nat
  root_number : Nat
  destiny_number : Nat
  natal_grid : List (List (Option String))
  natal_grid_dict : Nat → Option String
  year_grids : List YearGridEntry
  start_year : Nat
  end_year : Nat

/-- `calculate_numerology(birthdate, start_year, end_year)` for an already
split `DD/MM/YYYY` birthdate.  `none` models an uncaught exception — in
particular the `ValueError` raised inside `generate_mahadasha_timeline`
(which has no Feb-29 fallback), logged and re-raised by the surrounding
handler. -/
def calculate_numerology (day month year : Nat)
    (start_year end_year : Option Nat) : Option CalcResult :=
  match mkDate year month day with
  | none => none
  | some dob_date =>
    let root := calculate_root_number day
    let month_num := calculate_month_number month
    let year_num := calculate_year_number year
    let destiny := calculate_destiny_number root month_num year_num
    let natal_digits := build_natal_grid_digits day month year destiny
    let natal_grid_dict := build_natal_grid natal_digits
    let years_ahead := max ((end_year.getD (year + 100)) - year + 10) 120
    match generate_mahadasha_timeline dob_date root years_ahead with
    | none => none
    | some mahadasha_timeline =>
      match generate_year_table dob_date root month day start_year end_year with
      | none => none
      | some year_table =>
        match year_table.mapM
            (build_year_grid_entry natal_grid_dict mahadasha_timeline month day)
          with
        | none => none
        | some year_grids =>
          some ⟨day, month, year, root, destiny,
            get_natal_grid_array natal_grid_dict, natal_grid_dict, year_grids,
            start_year.getD year, end_year.getD (year + 100)⟩

end Numerology

namespace Numerology

/-- C3: the birthdate 29/02/2000 passes validation (`datetime` accepts it) and
its root is 2, but `generate_mahadasha_timeline` — which has no Feb-29
fallback — constructs `datetime(2002, 2, 29)` as the first period's end; 2002
is not a leap year, the `ValueError` is uncaught, and Operation A fails
instead of substituting day 28. -/
theorem feb29_full_profile_crashes :
    mkDate 2000 2 29 = some ⟨2000, 2, 29⟩ ∧
      calculate_root_number 29 = 2 ∧
      generate_mahadasha_timeline ⟨2000, 2, 29⟩ 2 120 = none ∧
      calculate_numerology 29 2 2000 none none = none :=
  ⟨by decide, by decide, by decide, rfl⟩

lemma cellLen_strip (g : Nat → String) (n : Nat) :
    cellLen (fun k => if g k = emptyString then none else some (g k)) n
      = (g n).length := by
  unfold cellLen
  dsimp only
  split_ifs with h
  · rw [h]
    rfl
  · rfl

/-- C9 (amended): when a per-year Mahadasha lookup comes back empty (the year
table has none and the retry against the timeline also finds none), the
calculation is NOT aborted: the year grid entry is still produced, its
`maha_number` is `None`, and its grid carries only the natal + Antardasha
characters — the Mahadasha +1 is silently omitted. -/
theorem missing_maha_lookup_not_aborted
    (natal_grid_dict : Nat → Option String) (timeline : List MPeriod)
    (month day : Nat) (ye : YearTableEntry) (ps pe : Date)
    (hps : projectBirthday ye.year month day = some ps)
    (hpe : projectBirthday (ye.year + 1) month day = some pe)
    (hm : ye.maha = none)
    (hlk : get_mahadasha_for_date timeline (dateToRd ps) = none) :
    ∃ e, build_year_grid_entry natal_grid_dict timeline month day ye = some e ∧
      e.maha = none ∧ e.year = ye.year ∧ e.antar = ye.antar ∧
      ∀ n, cellLen e.gridDict n
        = cellLen natal_grid_dict n
          + (if n = ye.antar ∧ 1 ≤ ye.antar ∧ ye.antar ≤ 9 then 1 else 0) := by
  have hpe2 : (projectBirthday (ye.year + 1) month day).map
      (fun dt => dateToRd dt - 1) = some (dateToRd pe - 1) := by
    rw [hpe]
    rfl
  unfold build_year_grid_entry
  rw [hps]
  dsimp only
  rw [hpe2]
  dsimp only
  rw [hm]
  dsimp only
  rw [hlk]
  dsimp only
  by_cases hant : 1 ≤ ye.antar ∧ ye.antar ≤ 9
  · rw [if_pos hant]
    refine ⟨_, rfl, rfl, rfl, rfl, ?_⟩
    intro n
    rw [cellLen_strip, addDigitStr_length]
    by_cases hn : n = ye.antar
    · rw [if_pos hn, if_pos ⟨hn, hant⟩]
      rfl
    · rw [if_neg hn, if_neg (fun hc => hn hc.1)]
      rfl
  · rw [if_neg hant]
    refine ⟨_, rfl, rfl, rfl, rfl, ?_⟩
    intro n
    rw [cellLen_strip]
    rw [if_neg (fun hc => hant hc.2)]
    rfl

/-- Witness for `missing_maha_lookup_not_aborted`: an empty timeline, a year
table row for 1900 with no Mahadasha, Antardasha 2, birthday 01/01. -/
theorem missing_maha_lookup_not_aborted_witness :
    projectBirthday 1900 1 1 = some ⟨1900, 1, 1⟩ ∧
      projectBirthday (1900 + 1) 1 1 = some ⟨1901, 1, 1⟩ ∧
      (⟨1900, 0, none, 2⟩ : YearTableEntry).maha = none ∧
      get_mahadasha_for_date [] (dateToRd ⟨1900, 1, 1⟩) = none ∧
      (∃ e, build_year_grid_entry (fun _ => none) [] 1 1 ⟨1900, 0, none, 2⟩
          = some e ∧
        e.maha = none ∧ e.year = (⟨1900, 0, none, 2⟩ : YearTableEntry).year ∧
        e.antar = (⟨1900, 0, none, 2⟩ : YearTableEntry).antar ∧
        ∀ n, cellLen e.gridDict n
          = cellLen (fun _ => none) n
            + (if n = (⟨1900, 0, none, 2⟩ : YearTableEntry).antar ∧
                1 ≤ (⟨1900, 0, none, 2⟩ : YearTableEntry).antar ∧
                (⟨1900, 0, none, 2⟩ : YearTableEntry).antar ≤ 9
              then 1 else 0)) :=
  ⟨by decide, by decide, rfl, rfl,
    missing_maha_lookup_not_aborted (fun _ => none) [] 1 1 ⟨1900, 0, none, 2⟩
      ⟨1900, 1, 1⟩ ⟨1901, 1, 1⟩ (by decide) (by decide) rfl rfl⟩

/-- C9 counterexample: for birthdate 01/01/1990 with requested range
1900..1900 (valid Operation A inputs), the review date 01/01/1900 precedes the
timeline, both Mahadasha lookups return not-found, and yet the calculation
completes: it returns a result whose single year grid has `maha_number = None`
and a grid populated with the 5 natal digits plus only the Antardasha (total 6
characters) — no abort, no failure surfaced. -/
theorem year_grid_completes_without_maha :
    (calculate_numerology 1 1 1990 (some 1900) (some 1900)).map
        (fun r => r.year_grids.map
          (fun e => (e.year, e.maha, gridTotalChars e.gridDict, e.antar)))
      = some [(1900, none, 6, 4)] ∧
    (build_natal_grid_digits 1 1 1990
        (calculate_destiny_number (calculate_root_number 1)
          (calculate_month_number 1) (calculate_year_number 1990))).length
      = 5 :=
  ⟨by decide, by decide⟩

end Numerology

namespace Numerology

lemma sum_indicator_range9 (k : Nat) :
    ((List.range 9).map (fun i => if (i + 1 : Nat) = k then 1 else 0)).sum
      = if 1 ≤ k ∧ k ≤ 9 then 1 else 0 := by
  by_cases hk : 1 ≤ k ∧ k ≤ 9
  · rw [if_pos hk]
    obtain ⟨h1, h2⟩ := hk
    interval_cases k <;> decide
  · rw [if_neg hk]
    apply List.sum_eq_zero
    intro x hx
    simp only [List.mem_map, List.mem_range] at hx
    obtain ⟨i, hi, rfl⟩ := hx
    rw [if_neg]
    omega

lemma gridTotalChars_strip (g : Nat → String) :
    gridTotalChars (fun n => if g n = emptyString then none else some (g n))
      = ((List.range 9).map (fun i => (g (i + 1)).length)).sum := by
  unfold gridTotalChars
  simp only [cellLen_strip]

lemma sum_addDigitStr (g : Nat → String) (k : Nat) :
    ((List.range 9).map (fun i => (addDigitStr g k (i + 1)).length)).sum
      = ((List.range 9).map (fun i => (g (i + 1)).length)).sum
        + (if 1 ≤ k ∧ k ≤ 9 then 1 else 0) := by
  simp only [addDigitStr_length]
  rw [list_sum_map_add, sum_indicator_range9]

/-- Character conservation for the annual year grids that `calculate_numerology`
assembles: total characters equal the natal dictionary's characters plus one
per overlay addition actually applied (Mahadasha when resolved and in 1..9,
Antardasha when in 1..9). -/
lemma year_grid_entry_chars
    (natalDict : Nat → Option String) (timeline : List MPeriod)
    (month day : Nat) (ye : YearTableEntry) (e : YearGridEntry)
    (he : build_year_grid_entry natalDict timeline month day ye = some e) :
    gridTotalChars e.gridDict
      = gridTotalChars natalDict
        + (match e.maha with
            | some mh => if 1 ≤ mh ∧ mh ≤ 9 then 1 else 0
            | none => 0)
        + (if 1 ≤ ye.antar ∧ ye.antar ≤ 9 then 1 else 0) := by
  unfold build_year_grid_entry at he
  rcases hps : projectBirthday ye.year month day with _ | ps
  · rw [hps] at he
    cases he
  rw [hps] at he
  dsimp only at he
  rcases hpem : (projectBirthday (ye.year + 1) month day).map
      (fun dt => dateToRd dt - 1) with _ | perd
  · rw [hpem] at he
    cases he
  rw [hpem] at he
  dsimp only at he
  injection he with he
  subst he
  dsimp only
  have hbase : ((List.range 9).map
      (fun i => (((fun n => (natalDict n).getD emptyString)) (i + 1)).length)).sum
      = gridTotalChars natalDict := rfl
  rcases hym : ye.maha with _ | v
  · dsimp only
    rcases hlk : get_mahadasha_for_date timeline (dateToRd ps) with _ | mh
    · dsimp only
      by_cases hant : 1 ≤ ye.antar ∧ ye.antar ≤ 9
      · rw [if_pos hant, if_pos hant, gridTotalChars_strip, sum_addDigitStr,
          if_pos hant, hbase] <;> omega
      · rw [if_neg hant, if_neg hant, gridTotalChars_strip, hbase] <;> omega
    · dsimp only
      by_cases hmh : 1 ≤ mh ∧ mh ≤ 9
      · rw [if_pos hmh, if_pos hmh]
        by_cases hant : 1 ≤ ye.antar ∧ ye.antar ≤ 9
        · rw [if_pos hant, if_pos hant, gridTotalChars_strip, sum_addDigitStr,
            if_pos hant, sum_addDigitStr, if_pos hmh, hbase] <;> omega
        · rw [if_neg hant, if_neg hant, gridTotalChars_strip, sum_addDigitStr,
            if_pos hmh, hbase] <;> omega
      · rw [if_neg hmh, if_neg hmh]
        by_cases hant : 1 ≤ ye.antar ∧ ye.antar ≤ 9
        · rw [if_pos hant, if_pos hant, gridTotalChars_strip, sum_addDigitStr,
            if_pos hant, hbase] <;> omega
        · rw [if_neg hant, if_neg hant, gridTotalChars_strip, hbase] <;> omega
  · dsimp only
    by_cases hmh : 1 ≤ v ∧ v ≤ 9
    · rw [if_pos hmh, if_pos hmh]
      by_cases hant : 1 ≤ ye.antar ∧ ye.antar ≤ 9
      · rw [if_pos hant, if_pos hant, gridTotalChars_strip, sum_addDigitStr,
          if_pos hant, sum_addDigitStr, if_pos hmh, hbase] <;> omega
      · rw [if_neg hant, if_neg hant, gridTotalChars_strip, sum_addDigitStr,
          if_pos hmh, hbase] <;> omega
    · rw [if_neg hmh, if_neg hmh]
      by_cases hant : 1 ≤ ye.antar ∧ ye.antar ≤ 9
      · rw [if_pos hant, if_pos hant, gridTotalChars_strip, sum_addDigitStr,
          if_pos hant, hbase] <;> omega
      · rw [if_neg hant, if_neg hant, gridTotalChars_strip, hbase] <;> omega

/-- C8 (confirmed): the total character count of a produced grid equals the
number of digit occurrences fed in, for every kind of grid the engine
produces: for the natal grid, the size of the digit multiset; for a period
grid, the sum of the base counts plus one for the Pratyantar overlay addition
when it is applied; and for Operation A's inline-assembled annual year grids,
the natal grid's characters plus one per overlay addition actually applied
(Mahadasha when the resolved lookup value is in 1..9, Antardasha when in
1..9). -/
theorem grid_population_conservation
    (digits : List Nat) (hdigits : ∀ x ∈ digits, 1 ≤ x ∧ x ≤ 9)
    (annual_grid_counts : Nat → Nat) (pratyantar : Nat) :
    gridTotalChars (build_natal_grid digits) = digits.length ∧
      gridTotalChars (build_period_grid annual_grid_counts pratyantar)
        = ((List.range 9).map (fun i => annual_grid_counts (i + 1))).sum
          + (if 1 ≤ pratyantar ∧ pratyantar ≤ 9 then 1 else 0) ∧
      (∀ (natalDict : Nat → Option String) (timeline : List MPeriod)
          (month day : Nat) (ye : YearTableEntry) (e : YearGridEntry),
        build_year_grid_entry natalDict timeline month day ye = some e →
        gridTotalChars e.gridDict
          = gridTotalChars natalDict
            + (match e.maha with
                | some mh => if 1 ≤ mh ∧ mh ≤ 9 then 1 else 0
                | none => 0)
            + (if 1 ≤ ye.antar ∧ ye.antar ≤ 9 then 1 else 0)) := by
  refine ⟨?_, ?_, ?_⟩
  · unfold gridTotalChars
    have : ∀ i, cellLen (build_natal_grid digits) (i + 1) = digits.count (i + 1) :=
      fun i => cellLen_build_natal_grid digits (i + 1)
    simp only [this]
    exact sum_count_eq_length digits hdigits
  · unfold gridTotalChars
    simp only [cellLen_build_period_grid]
    rw [list_sum_map_add]
    congr 1
    by_cases hp : 1 ≤ pratyantar ∧ pratyantar ≤ 9
    · rw [if_pos hp]
      obtain ⟨h1, h2⟩ := hp
      interval_cases pratyantar <;> decide
    · rw [if_neg hp]
      have hz : ∀ i : Nat,
          (if (i + 1 = pratyantar ∧ 1 ≤ pratyantar ∧ pratyantar ≤ 9)
            then 1 else 0) = 0 := by
        intro i
        rw [if_neg]
        intro hc
        exact hp hc.2
      simp only [hz]
      simp
  · intro natalDict timeline month day ye e he
    exact year_grid_entry_chars natalDict timeline month day ye e he

/-- Witness for `grid_population_conservation` on the natal digits of
30/06/1986 and a small counts function with Pratyantar 9. -/
theorem grid_population_conservation_witness :
    (∀ x ∈ [3, 3, 6, 8, 6, 6], 1 ≤ x ∧ x ≤ 9) ∧
      (gridTotalChars (build_natal_grid [3, 3, 6, 8, 6, 6])
          = (6 : Nat) ∧
        gridTotalChars
            (build_period_grid (fun n => if n = 3 then 2 else 0) 9)
          = ((List.range 9).map
              (fun i => (fun n => if n = 3 then 2 else 0) (i + 1))).sum
            + (if 1 ≤ (9 : Nat) ∧ (9 : Nat) ≤ 9 then 1 else 0) ∧
        (∀ (natalDict : Nat → Option String) (timeline : List MPeriod)
            (month day : Nat) (ye : YearTableEntry) (e : YearGridEntry),
          build_year_grid_entry natalDict timeline month day ye = some e →
          gridTotalChars e.gridDict
            = gridTotalChars natalDict
              + (match e.maha with
                  | some mh => if 1 ≤ mh ∧ mh ≤ 9 then 1 else 0
                  | none => 0)
              + (if 1 ≤ ye.antar ∧ ye.antar ≤ 9 then 1 else 0))) :=
  ⟨by decide,
    grid_population_conservation [3, 3, 6, 8, 6, 6] (by decide)
      (fun n => if n = 3 then 2 else 0) 9⟩

end Numerology
